import Mathlib

/-!
Verification of the X-Slot protocol stack against its natural-language
specification.  The definitions below are a shallow embedding of the C/C++
sources: machine integers become `Nat` with explicit `% 2^w` where the source
truncates, byte buffers become `List Nat` (each element a byte value), and
fallible operations return `Except Error`.
-/

namespace XSlot

/-- Error codes, from include/xslot/xslot_error.h and src/core/error.h. -/
inductive Error where
  | invalidParam
  | timeout
  | crcError
  | noMemory
  | busy
  | offline
  | noDevice
  | notInitialized
  | sendFailed
deriving DecidableEq, Repr

deriving instance DecidableEq for Except

/-- Little-endian byte pair of a 16-bit value, as produced by `memcpy` of a
`uint16_t` on a little-endian host (BufferWriter.write in buffer_utils.h). -/
def u16le (v : Nat) : List Nat := [v % 256, (v / 256) % 256]

/-- One shift step of the CRC register, from the inner loop of
core.h `CRC16::Calculate`: if the high bit is set, shift left and xor the
polynomial 0x1021, else just shift left; the register is a `uint16_t`. -/
def crcBitStep (crc : Nat) : Nat :=
  if crc &&& 0x8000 ≠ 0 then ((crc <<< 1) ^^^ 0x1021) % 65536
  else (crc <<< 1) % 65536

/-- The 8-iteration inner `for` loop of core.h `CRC16::Calculate`. -/
def crcShiftLoop : Nat → Nat → Nat
  | 0, crc => crc
  | j + 1, crc => crcShiftLoop j (crcBitStep crc)

/-- CRC-16 routine, translated from core.h `CRC16::Calculate`: register starts
at 0xFFFF, each byte is xor-ed into its high half (`crc ^= b << 8`, stored back
into the 16-bit register), then 8 shift steps follow.  src/core/frame.h
declares `calculate_crc16` without a definition under src; per the spec this
is the same CCITT-FALSE routine, so a single definition serves both. -/
def CRC16Calculate (data : List Nat) : Nat :=
  data.foldl (fun crc b => crcShiftLoop 8 ((crc ^^^ (b <<< 8)) % 65536)) 0xFFFF

/-- Modelled from the spec: one shift step exactly as §4.1 words it — "if high
bit set, `crc = (crc << 1) ^ 0x1021`, else `crc <<= 1`; keep 16-bit width
throughout", with "high bit set" read as bit 15 of the register. -/
def crcBitStepSpec (crc : Nat) : Nat :=
  if Nat.testBit crc 15 then ((crc * 2) ^^^ 0x1021) % 65536
  else (crc * 2) % 65536

/-- Modelled from the spec: the whole CRC algorithm of §4.1 — initialize
`crc = 0xFFFF`; for each input byte `b`: `crc ^= (b << 8)`; then 8 shift
steps of `crcBitStepSpec`. -/
def crc16CcittSpec (data : List Nat) : Nat :=
  data.foldl
    (fun crc b =>
      (crcBitStepSpec (crcBitStepSpec (crcBitStepSpec (crcBitStepSpec
        (crcBitStepSpec (crcBitStepSpec (crcBitStepSpec (crcBitStepSpec
          ((crc ^^^ (b <<< 8)) % 65536)))))))))) 0xFFFF

/-- Protocol frame, from src/core/frame.h class `Frame`.  The payload is the
`len`-byte prefix of the `data_` array, so it is carried as a list whose
length is the `len` field; `crc` is the stored CRC member. -/
structure Frame where
  sync : Nat
  fromAddr : Nat
  toAddr : Nat
  seq : Nat
  cmd : Nat
  data : List Nat
  crc : Nat
deriving DecidableEq, Repr

/-- Well-formedness of a frame, recording the C field types (uint8 / uint16)
and the byte type of the payload array. -/
def Frame.WF (f : Frame) : Prop :=
  f.sync < 256 ∧ f.fromAddr < 65536 ∧ f.toAddr < 65536 ∧ f.seq < 256 ∧
  f.cmd < 256 ∧ f.data.length ≤ 128 ∧ (∀ b ∈ f.data, b < 256) ∧ f.crc < 65536

instance : DecidablePred Frame.WF := fun f => by
  unfold Frame.WF; infer_instance

/-- Command codes, from include/xslot/xslot_types.h `xslot_cmd_t`. -/
def CMD_PING : Nat := 0x01
def CMD_PONG : Nat := 0x02
def CMD_REPORT : Nat := 0x10
def CMD_QUERY : Nat := 0x11
def CMD_RESPONSE : Nat := 0x12
def CMD_WRITE : Nat := 0x20
def CMD_WRITE_ACK : Nat := 0x21

/-- The 8-byte wire header SYNC | FROM | TO | SEQ | CMD | LEN written by
`Frame::encode` (frame.h, lines 186–191). -/
def Frame.headerBytes (f : Frame) : List Nat :=
  f.sync % 256 :: u16le f.fromAddr ++ u16le f.toAddr ++
    [f.seq % 256, f.cmd % 256, f.data.length % 256]

/-- Frame encoding, from frame.h `Frame::encode`: fails with `NoMemory` when
the buffer is smaller than `8 + len + 2`, otherwise writes the header, the
payload and the little-endian CRC computed over header plus payload. -/
def Frame.encode (f : Frame) (bufSize : Nat) : Except Error (List Nat) :=
  if bufSize < 8 + f.data.length + 2 then .error .noMemory
  else
    let body := f.headerBytes ++ f.data
    .ok (body ++ u16le (CRC16Calculate body))

/-- Frame decoding, from frame.h `Frame::decode`: requires 10 bytes, checks
the sync byte, the `len ≤ 128` bound and the buffer length, then recomputes
the CRC over the `8 + len` prefix and compares with the trailing
little-endian CRC. -/
def Frame.decode (buffer : List Nat) : Except Error Frame :=
  if buffer.length < 10 then .error .invalidParam
  else
    let sync := buffer.getD 0 0
    if sync ≠ 0xAA then .error .invalidParam
    else
      let fromA := buffer.getD 1 0 + 256 * buffer.getD 2 0
      let toA := buffer.getD 3 0 + 256 * buffer.getD 4 0
      let seq := buffer.getD 5 0
      let cmd := buffer.getD 6 0
      let len := buffer.getD 7 0
      if len > 128 then .error .invalidParam
      else if buffer.length < 8 + len + 2 then .error .invalidParam
      else
        let stored := buffer.getD (8 + len) 0 + 256 * buffer.getD (8 + len + 1) 0
        if CRC16Calculate (buffer.take (8 + len)) ≠ stored then .error .crcError
        else .ok ⟨sync, fromA, toA, seq, cmd, (buffer.drop 8).take len, stored⟩

/-- Modelled from the spec: the decode contract exactly as claim C3 words it —
`InvalidParam` for a short buffer, a bad sync byte, an oversized declared
length or a buffer shorter than `8 + len + 2`; `CrcError` when the trailing
little-endian CRC differs from the CRC recomputed over the 8-byte header plus
the `len` data bytes; otherwise the decoded frame. -/
def decodeSpecC3 (buffer : List Nat) : Except Error Frame :=
  if buffer.length < 10 ∨ buffer.getD 0 0 ≠ 0xAA ∨ buffer.getD 7 0 > 128 ∨
      buffer.length < 8 + buffer.getD 7 0 + 2 then
    .error .invalidParam
  else if CRC16Calculate (buffer.take (8 + buffer.getD 7 0)) ≠
      buffer.getD (8 + buffer.getD 7 0) 0 +
        256 * buffer.getD (8 + buffer.getD 7 0 + 1) 0 then
    .error .crcError
  else
    .ok ⟨0xAA, buffer.getD 1 0 + 256 * buffer.getD 2 0,
      buffer.getD 3 0 + 256 * buffer.getD 4 0, buffer.getD 5 0,
      buffer.getD 6 0, (buffer.drop 8).take (buffer.getD 7 0),
      buffer.getD (8 + buffer.getD 7 0) 0 +
        256 * buffer.getD (8 + buffer.getD 7 0 + 1) 0⟩

/-- BACnet object, from include/xslot/xslot_types.h `xslot_bacnet_object_t`.
The `present_value` union (float analog / uint8 binary / uint8 raw[16]) is
carried as its 16-byte storage `pv`; the analog value occupies the first four
bytes (its IEEE-754 bit pattern, little-endian), the binary value the first
byte. -/
structure BacnetObject where
  object_id : Nat
  object_type : Nat
  flags : Nat
  pv : List Nat
deriving DecidableEq, Repr

instance : Inhabited BacnetObject := ⟨⟨0, 0, 0, List.replicate 16 0⟩⟩

/-- Object type codes, from xslot_types.h `xslot_object_type_t`. -/
def OBJ_ANALOG_INPUT : Nat := 0
def OBJ_ANALOG_OUTPUT : Nat := 1
def OBJ_ANALOG_VALUE : Nat := 2
def OBJ_BINARY_INPUT : Nat := 3
def OBJ_BINARY_OUTPUT : Nat := 4
def OBJ_BINARY_VALUE : Nat := 5

/-- Well-formedness of an object, recording the C field types: uint16 id,
uint8 type and flags, 16-byte value union. -/
def BacnetObject.WF (o : BacnetObject) : Prop :=
  o.object_id < 65536 ∧ o.object_type < 256 ∧ o.flags < 256 ∧
  o.pv.length = 16 ∧ ∀ b ∈ o.pv, b < 256

instance : DecidablePred BacnetObject.WF := fun o => by
  unfold BacnetObject.WF; infer_instance

/-- From message_builder.h `BacnetSerializer::is_analog_type`. -/
def is_analog_type (t : Nat) : Bool :=
  t == OBJ_ANALOG_INPUT || t == OBJ_ANALOG_OUTPUT || t == OBJ_ANALOG_VALUE

/-- From message_builder.h `BacnetSerializer::is_binary_type`. -/
def is_binary_type (t : Nat) : Bool :=
  t == OBJ_BINARY_INPUT || t == OBJ_BINARY_OUTPUT || t == OBJ_BINARY_VALUE

/-- The value bytes a serializer writes for an object: the analog float's four
union bytes, the binary value's one union byte, or the full 16 raw bytes
(message_builder.cpp, the VALUE branches of `serialize`). -/
def valueBytes (o : BacnetObject) : List Nat :=
  if is_analog_type o.object_type then o.pv.take 4
  else if is_binary_type o.object_type then o.pv.take 1
  else o.pv.take 16

/-- From message_builder.cpp `get_type_hint`: 0x80 sentinel with the low bits
encoding the value class (0 analog, 1 binary, 2 other). -/
def get_type_hint (t : Nat) : Nat :=
  if is_analog_type t then 0x80 ||| 0x00
  else if is_binary_type t then 0x80 ||| 0x01
  else 0x80 ||| 0x02

/-- From message_builder.cpp `infer_object_type`: the canonical type
reconstructed from a type hint (AI for analog, BI for binary, AV otherwise). -/
def infer_object_type (type_hint : Nat) : Nat :=
  if type_hint &&& 0x0F = 0x00 then OBJ_ANALOG_INPUT
  else if type_hint &&& 0x0F = 0x01 then OBJ_BINARY_INPUT
  else OBJ_ANALOG_VALUE

/-- From message_builder.h `BacnetSerializer::is_incremental_format`. -/
def is_incremental_format (type_hint : Nat) : Bool :=
  type_hint &&& 0x80 ≠ 0

/-- Buffer writer (buffer_utils.h `BufferWriter`): a capacity and the bytes
written so far; its offset is the length of `buf`.  A write fails when the
bytes would not fit. -/
structure BufferWriter where
  cap : Nat
  buf : List Nat

/-- From buffer_utils.h `BufferWriter::write_bytes` (and `write`, whose
little-endian bytes the callers pass explicitly here). -/
def BufferWriter.writeBytes (w : BufferWriter) (bs : List Nat) :
    Option BufferWriter :=
  if w.buf.length + bs.length > w.cap then none
  else some ⟨w.cap, w.buf ++ bs⟩

/-- The per-object byte layout of the full dialect,
`OBJ_ID | OBJ_TYPE | FLAGS | VALUE` (message_builder.cpp `serialize`). -/
def objBytesFull (o : BacnetObject) : List Nat :=
  u16le o.object_id ++ [o.object_type % 256, o.flags % 256] ++ valueBytes o

/-- The per-object byte layout of the incremental dialect,
`OBJ_ID | TYPE_HINT | VALUE` (message_builder.cpp `serialize_incremental`). -/
def objBytesInc (o : BacnetObject) : List Nat :=
  u16le o.object_id ++ [get_type_hint o.object_type] ++ valueBytes o

/-- The object loop of `BacnetSerializer::serialize_batch`
(message_builder.cpp, lines 66–90). -/
def serializeObjsFull : BufferWriter → List BacnetObject → Option BufferWriter
  | w, [] => some w
  | w, o :: rest => do
    let w ← w.writeBytes (objBytesFull o)
    serializeObjsFull w rest

/-- The object loop of `BacnetSerializer::serialize_incremental_batch`
(message_builder.cpp, lines 288–309). -/
def serializeObjsInc : BufferWriter → List BacnetObject → Option BufferWriter
  | w, [] => some w
  | w, o :: rest => do
    let w ← w.writeBytes (objBytesInc o)
    serializeObjsInc w rest

/-- From message_builder.cpp `BacnetSerializer::serialize_batch`: rejects an
empty batch, writes the count byte `(uint8_t)objects.size()`, then each object
in full format; any capacity overflow yields `NoMemory`. -/
def serialize_batch (objs : List BacnetObject) (cap : Nat) :
    Except Error (List Nat) :=
  if objs.isEmpty then .error .invalidParam
  else
    match (BufferWriter.mk cap []).writeBytes [objs.length % 256] |>.bind
        (serializeObjsFull · objs) with
    | some w => .ok w.buf
    | none => .error .noMemory

/-- From message_builder.cpp `BacnetSerializer::serialize_incremental_batch`:
rejects an empty batch, writes the count byte `(uint8_t)objects.size()`, then
each object in incremental format. -/
def serialize_incremental_batch (objs : List BacnetObject) (cap : Nat) :
    Except Error (List Nat) :=
  if objs.isEmpty then .error .invalidParam
  else
    match (BufferWriter.mk cap []).writeBytes [objs.length % 256] |>.bind
        (serializeObjsInc · objs) with
    | some w => .ok w.buf
    | none => .error .noMemory

/-- Reads one byte (buffer_utils.h `BufferReader::read<uint8_t>`).  The reader
is represented by the not-yet-consumed suffix of its buffer. -/
def readU8 : List Nat → Option (Nat × List Nat)
  | [] => none
  | b :: rest => some (b, rest)

/-- Reads a little-endian 16-bit value (`BufferReader::read<uint16_t>`). -/
def readU16 : List Nat → Option (Nat × List Nat)
  | b0 :: b1 :: rest => some (b0 + 256 * b1, rest)
  | _ => none

/-- Reads `n` bytes (`BufferReader::read_bytes`). -/
def readBytesN (n : Nat) (buf : List Nat) : Option (List Nat × List Nat) :=
  if n ≤ buf.length then some (buf.take n, buf.drop n) else none

/-- Overwrites the first `n` union bytes of an object's value storage with
`bs` (the effect of `memcpy` into one union member), keeping the rest. -/
def BacnetObject.setPv (o : BacnetObject) (bs : List Nat) : BacnetObject :=
  { o with pv := bs ++ o.pv.drop bs.length }

/-- Reads one full-format object into `o` — the body of
`BacnetSerializer::deserialize` (message_builder.cpp, lines 96–141), which is
also one iteration of the `deserialize_batch` loop. -/
def deserObjFull (buf : List Nat) (o : BacnetObject) :
    Except Error (BacnetObject × List Nat) :=
  match readU16 buf with
  | none => .error .invalidParam
  | some (id, buf) =>
    match readU8 buf with
    | none => .error .invalidParam
    | some (ty, buf) =>
      match readU8 buf with
      | none => .error .invalidParam
      | some (fl, buf) =>
        let o := { o with object_id := id, object_type := ty, flags := fl }
        if is_analog_type ty then
          match readBytesN 4 buf with
          | none => .error .invalidParam
          | some (bs, buf) => .ok (o.setPv bs, buf)
        else if is_binary_type ty then
          match readBytesN 1 buf with
          | none => .error .invalidParam
          | some (bs, buf) => .ok (o.setPv bs, buf)
        else
          match readBytesN 16 buf with
          | none => .error .invalidParam
          | some (bs, buf) => .ok (o.setPv bs, buf)

/-- Reads one incremental-format object into `o` — one iteration of the
`deserialize_incremental_batch` loop (message_builder.cpp, lines 334–370):
the canonical type is inferred from the hint, the flags become 0, and the
value class is the low nibble of the hint. -/
def deserObjInc (buf : List Nat) (o : BacnetObject) :
    Except Error (BacnetObject × List Nat) :=
  match readU16 buf with
  | none => .error .invalidParam
  | some (id, buf) =>
    match readU8 buf with
    | none => .error .invalidParam
    | some (hint, buf) =>
      let o := { o with object_id := id,
                        object_type := infer_object_type hint, flags := 0 }
      if hint &&& 0x0F = 0x00 then
        match readBytesN 4 buf with
        | none => .error .invalidParam
        | some (bs, buf) => .ok (o.setPv bs, buf)
      else if hint &&& 0x0F = 0x01 then
        match readBytesN 1 buf with
        | none => .error .invalidParam
        | some (bs, buf) => .ok (o.setPv bs, buf)
      else
        match readBytesN 16 buf with
        | none => .error .invalidParam
        | some (bs, buf) => .ok (o.setPv bs, buf)

/-- The `for i in 0..count` loop shared by both batch deserializers: decodes
`count` objects into the prefix of `outs` using the per-object reader `step`,
leaving the remaining output entries untouched. -/
def deserLoop (step : List Nat → BacnetObject →
    Except Error (BacnetObject × List Nat)) :
    Nat → List Nat → List BacnetObject → Except Error (List BacnetObject)
  | 0, _, outs => .ok outs
  | _ + 1, _, [] => .ok []
  | k + 1, buf, o :: rest =>
    match step buf o with
    | .error e => .error e
    | .ok (o, buf) =>
      match deserLoop step k buf rest with
      | .error e => .error e
      | .ok rest => .ok (o :: rest)

/-- From message_builder.cpp `BacnetSerializer::deserialize_batch`: rejects an
empty buffer or output span, reads the count byte, clamps it to the output
capacity, then decodes that many full-format objects in place.  Returns the
clamped count and the updated output entries. -/
def deserialize_batch (buffer : List Nat) (outs : List BacnetObject) :
    Except Error (Nat × List BacnetObject) :=
  if buffer.isEmpty ∨ outs.isEmpty then .error .invalidParam
  else
    match readU8 buffer with
    | none => .error .invalidParam
    | some (count, buf) =>
      let count := if count > outs.length then outs.length else count
      match deserLoop deserObjFull count buf outs with
      | .error e => .error e
      | .ok outs => .ok (count, outs)

/-- From message_builder.cpp `BacnetSerializer::deserialize_incremental_batch`:
same shape as the full-format batch deserializer, per-object logic from
`deserObjInc`. -/
def deserialize_incremental_batch (buffer : List Nat)
    (outs : List BacnetObject) : Except Error (Nat × List BacnetObject) :=
  if buffer.isEmpty ∨ outs.isEmpty then .error .invalidParam
  else
    match readU8 buffer with
    | none => .error .invalidParam
    | some (count, buf) =>
      let count := if count > outs.length then outs.length else count
      match deserLoop deserObjInc count buf outs with
      | .error e => .error e
      | .ok outs => .ok (count, outs)

/-- From message_builder.h `message::parse_report` (lines 299–320): requires a
Report command and a non-empty payload; when the payload has at least four
bytes and the fourth byte carries the 0x80 sentinel, parses the incremental
dialect, otherwise the full dialect. -/
def parse_report (f : Frame) (outs : List BacnetObject) :
    Except Error (Nat × List BacnetObject) :=
  if f.cmd ≠ CMD_REPORT then .error .invalidParam
  else if f.data.length < 1 then .error .invalidParam
  else if f.data.length ≥ 4 ∧ is_incremental_format (f.data.getD 3 0) then
    deserialize_incremental_batch f.data outs
  else
    deserialize_batch f.data outs

/-- From message_builder.h `message::parse_write` (lines 325–332): requires a
Write command, then deserializes a single full-format object.  Returns the
consumed byte count as the reader offset. -/
def parse_write (f : Frame) (o : BacnetObject) :
    Except Error (BacnetObject × List Nat) :=
  if f.cmd ≠ CMD_WRITE then .error .invalidParam
  else deserObjFull f.data o

/-- Node entry, from src/core/node_table.h `NodeInfo`. -/
structure NodeEntry where
  addr : Nat
  last_seen : Nat
  rssi : Int
  online : Bool
  object_count : Nat
deriving DecidableEq, Repr

/-- Node table, from src/core/node_table.h `NodeTable<MaxNodes>`: a bounded
entry array (here the `count_`-long prefix as a list) plus the template
capacity. -/
structure NodeTable where
  maxNodes : Nat
  entries : List NodeEntry
deriving DecidableEq, Repr

/-- The uint32 difference `now - last_seen` computed by `check_timeout`
(node_table.h, line 140); both operands are `uint32_t`, so the subtraction
wraps modulo 2^32. -/
def subU32 (a b : Nat) : Nat := (a % 4294967296 + 4294967296 - b % 4294967296) % 4294967296

/-- First entry with the given address — the find loops of node_table.h. -/
def findAddr : List NodeEntry → Nat → Option NodeEntry
  | [], _ => none
  | e :: rest, a => if e.addr = a then some e else findAddr rest a

/-- The existing-node scan of `NodeTable::update` (node_table.h, lines
93–103): refresh the first entry with the address and report whether it had
been offline; `none` when the address is absent. -/
def updateExisting (now : Nat) (a : Nat) (rssi : Int) :
    List NodeEntry → Option (List NodeEntry × Bool)
  | [] => none
  | e :: rest =>
    if e.addr = a then
      some ({ e with last_seen := now, rssi := rssi, online := true } :: rest,
        !e.online)
    else
      match updateExisting now a rssi rest with
      | some (rest, ret) => some (e :: rest, ret)
      | none => none

/-- The oldest-offline scan of `NodeTable::update` (node_table.h, lines
108–116): index of the offline entry with the strictly smallest `last_seen`,
starting from `oldest_time = UINT32_MAX`. -/
def oldestOfflineAux : List NodeEntry → Nat → Nat → Option Nat → Option Nat
  | [], _, _, best => best
  | e :: rest, i, btime, best =>
    if !e.online && e.last_seen < btime then
      oldestOfflineAux rest (i + 1) e.last_seen (some i)
    else
      oldestOfflineAux rest (i + 1) btime best

/-- Index of the LRU offline entry, with `oldest_time` initialized to
`UINT32_MAX` as in the source. -/
def oldestOfflineIdx (es : List NodeEntry) : Option Nat :=
  oldestOfflineAux es 0 4294967295 none

/-- From node_table.h `NodeTable::update`: refresh an existing entry (newly
online when it was offline), otherwise insert; when the table is full, replace
the LRU offline entry or fail silently.  `now` is the value the source reads
from `hal_get_timestamp_ms`, passed explicitly here. -/
def NodeTable.update (tbl : NodeTable) (now : Nat) (a : Nat) (rssi : Int) :
    NodeTable × Bool :=
  match updateExisting now a rssi tbl.entries with
  | some (es, ret) => ({ tbl with entries := es }, ret)
  | none =>
    if tbl.entries.length ≥ tbl.maxNodes then
      match oldestOfflineIdx tbl.entries with
      | some j =>
        ({ tbl with entries := tbl.entries.set j ⟨a, now, rssi, true, 0⟩ },
          true)
      | none => (tbl, false)
    else
      ({ tbl with entries := tbl.entries ++ [⟨a, now, rssi, true, 0⟩] }, true)

/-- The per-entry timeout test of `NodeTable::check_timeout` (node_table.h,
lines 139–140). -/
def timedOut (now timeout : Nat) (e : NodeEntry) : Bool :=
  e.online && subU32 now e.last_seen > timeout

/-- From node_table.h `NodeTable::check_timeout`: every online entry whose age
exceeds the timeout goes offline and its address is reported to the callback;
the returned list is the sequence of callback invocations in entry order. -/
def NodeTable.check_timeout (tbl : NodeTable) (now timeout : Nat) :
    NodeTable × List Nat :=
  ({ tbl with entries := tbl.entries.map (fun e =>
      if timedOut now timeout e then { e with online := false } else e) },
   tbl.entries.filterMap (fun e =>
      if timedOut now timeout e then some e.addr else none))

/-- From message_builder.h `message::build_pong`: an empty-payload Pong frame.
A frame built by `FrameBuilder` starts from `Frame(from, 0, 0, cmd)`, whose
stored CRC member is 0. -/
def build_pong (fromA toA seq : Nat) : Frame :=
  ⟨0xAA, fromA, toA, seq, CMD_PONG, [], 0⟩

/-- From message_builder.h `message::build_write_ack`: a WriteAck frame whose
single payload byte is the result code. -/
def build_write_ack (fromA toA seq result : Nat) : Frame :=
  ⟨0xAA, fromA, toA, seq, CMD_WRITE_ACK, [result % 256], 0⟩

/-- Observable actions of the manager dispatch: frames handed to
`send_frame`, and the user callbacks invoked (manager.cpp `handle_frame`). -/
inductive MgrEvent where
  | nodeOnline (addr : Nat)
  | sent (f : Frame)
  | reportEvt (src : Nat) (objs : List BacnetObject)
  | writeEvt (src : Nat) (obj : BacnetObject)
  | dataEvt (src : Nat) (bytes : List Nat)
deriving DecidableEq, Repr

/-- From manager.cpp `Manager::handle_frame`: update the node table (firing
the node callback when newly online), then dispatch on the command — Ping
answers Pong, Report parses into a 16-slot array and fires the report
callback when at least one object parsed, Write parses one object, fires the
write callback on success and always answers WriteAck with result 0,
Response/Query fire the raw-data callback. -/
def handle_frame (localAddr now : Nat) (tbl : NodeTable) (f : Frame) :
    NodeTable × List MgrEvent :=
  let upd := tbl.update now f.fromAddr 0
  let nodeEvs : List MgrEvent :=
    if upd.2 then [.nodeOnline f.fromAddr] else []
  let cmdEvs : List MgrEvent :=
    if f.cmd = CMD_PING then [.sent (build_pong localAddr f.fromAddr f.seq)]
    else if f.cmd = CMD_PONG then []
    else if f.cmd = CMD_REPORT then
      match parse_report f (List.replicate 16 default) with
      | .ok (count, outs) =>
        if count > 0 then [.reportEvt f.fromAddr (outs.take count)] else []
      | .error _ => []
    else if f.cmd = CMD_WRITE then
      (match parse_write f default with
        | .ok (o, _) => [.writeEvt f.fromAddr o]
        | .error _ => []) ++
      [.sent (build_write_ack localAddr f.fromAddr f.seq 0)]
    else if f.cmd = CMD_RESPONSE ∨ f.cmd = CMD_QUERY then
      [.dataEvt f.fromAddr f.data]
    else []
  (upd.1, nodeEvs ++ cmdEvs)

/-- From manager.cpp `Manager::on_frame_received`: decode the bytes, drop the
frame unless addressed to the local node or broadcast, then dispatch. -/
def on_frame_received (localAddr now : Nat) (tbl : NodeTable)
    (bytes : List Nat) : NodeTable × List MgrEvent :=
  match Frame.decode bytes with
  | .error _ => (tbl, [])
  | .ok f =>
    if f.toAddr ≠ localAddr ∧ f.toAddr ≠ 0 then (tbl, [])
    else handle_frame localAddr now tbl f

/-- AT driver state names, from tpmesh_at_driver.h / tpmesh_at_driver.cpp. -/
inductive ATMode where
  | idle
  | waitingResponse
deriving DecidableEq, Repr

/-- The AT driver receiver-visible state: the command state machine, the
intermediate response lines and the OK/ERROR outcome flag
(`TPMeshATDriver` members `state_`, `response_buffer_`, `response_ok_`). -/
structure ATDriverState where
  mode : ATMode
  response_buffer : List (List Char)
  response_ok : Bool
deriving DecidableEq, Repr

/-- Substring test matching `std::string::find(needle) != npos`. -/
def containsSub (hay needle : List Char) : Bool :=
  if needle.isPrefixOf hay then true
  else
    match hay with
    | [] => false
    | _ :: rest => containsSub rest needle

/-- From tpmesh_at_driver.cpp `TPMeshATDriver::processLine` (lines 328–372):
in `WAITING_RESPONSE`, a line containing `OK` or `ERROR` terminates the
command, any other line is appended to the response buffer; in `IDLE`, a line
starting with `+` is dispatched as a URC.  The second component collects the
URC lines handed to the URC callback. -/
def processLine (st : ATDriverState) (line : List Char) :
    ATDriverState × List (List Char) :=
  if line = [] then (st, [])
  else
    match st.mode with
    | .waitingResponse =>
      if containsSub line ['O', 'K'] then
        ({ st with response_ok := true, mode := .idle }, [])
      else if containsSub line ['E', 'R', 'R', 'O', 'R'] then
        ({ st with response_ok := false, mode := .idle }, [])
      else
        ({ st with response_buffer := st.response_buffer ++ [line] }, [])
    | .idle =>
      if line.head? = some '+' then (st, [line]) else (st, [])

/-- Feeds a sequence of received lines through the state machine, collecting
all dispatched URCs — the repeated `processLine` calls made by the receiver
thread (`rxThreadFunc`). -/
def runLines : ATDriverState → List (List Char) →
    ATDriverState × List (List Char)
  | st, [] => (st, [])
  | st, l :: rest =>
    let r := processLine st l
    let r2 := runLines r.1 rest
    (r2.1, r.2 ++ r2.2)

/-- Run modes, from xslot_types.h `xslot_run_mode_t`. -/
inductive RunMode where
  | modeNone
  | wireless
  | hmi
deriving DecidableEq, Repr

/-- Transport kinds of the three C implementations. -/
inductive TransportKind where
  | mesh
  | direct
  | null
deriving DecidableEq, Repr

/-- A C transport as the manager observes it: its kind and the integer codes
its `probe` and `start` vtable entries return. -/
structure CTransport where
  kind : TransportKind
  probeRet : Int
  startRet : Int
deriving DecidableEq, Repr

/-- The Null transport, from null_transport.cpp: `null_probe` returns
`XSLOT_ERR_NO_DEVICE` (−7) and `null_start` returns `XSLOT_OK` (0). -/
def nullTransport : CTransport := ⟨.null, -7, 0⟩

/-- The environment of `detect_and_create_transport`: the outcome of the two
`*_transport_create` calls (`none` when creation fails) and whether
`null_transport_create`'s allocation succeeds. -/
structure DetectEnv where
  mesh : Option CTransport
  direct : Option CTransport
  nullAlloc : Bool
deriving DecidableEq, Repr

/-- From xslot_manager.cpp `detect_and_create_transport` (lines 323–348):
probe mesh first, then direct; on failure install the Null transport. -/
def detect_and_create_transport (env : DetectEnv) :
    RunMode × Option CTransport :=
  match env.mesh with
  | some t =>
    if t.probeRet = 0 then (.wireless, some t)
    else
      match env.direct with
      | some d =>
        if d.probeRet = 0 then (.hmi, some d)
        else (.modeNone, if env.nullAlloc then some nullTransport else none)
      | none => (.modeNone, if env.nullAlloc then some nullTransport else none)
  | none =>
    match env.direct with
    | some d =>
      if d.probeRet = 0 then (.hmi, some d)
      else (.modeNone, if env.nullAlloc then some nullTransport else none)
    | none => (.modeNone, if env.nullAlloc then some nullTransport else none)

/-- The observable outcome of `xslot_manager_start`: the returned error code
and the manager's mode, installed transport and running flag afterwards. -/
structure StartOutcome where
  ret : Int
  mode : RunMode
  transport : Option CTransport
  running : Bool
deriving DecidableEq, Repr

/-- From xslot_manager.cpp `xslot_manager_start` (lines 74–101): an already
running manager returns OK; otherwise detect a transport (returning
`XSLOT_ERR_NO_DEVICE` = −7 if none could be created), start it (destroying it
and propagating the code on failure), else mark the manager running. -/
def xslot_manager_start (running : Bool) (mode : RunMode) (env : DetectEnv) :
    StartOutcome :=
  if running then ⟨0, mode, none, true⟩
  else
    let det := detect_and_create_transport env
    match det.2 with
    | none => ⟨-7, .modeNone, none, false⟩
    | some t =>
      if t.startRet ≠ 0 then ⟨t.startRet, .modeNone, none, false⟩
      else ⟨0, det.1, some t, true⟩

/-- Concatenated full-format byte stream of a batch (the bytes the
`serialize_batch` object loop emits after the count byte). -/
def fullBytes : List BacnetObject → List Nat
  | [] => []
  | o :: rest => objBytesFull o ++ fullBytes rest

/-- Concatenated incremental-format byte stream of a batch (the bytes the
`serialize_incremental_batch` object loop emits after the count byte). -/
def incBytes : List BacnetObject → List Nat
  | [] => []
  | o :: rest => objBytesInc o ++ incBytes rest

/-- The object the incremental decoder reconstructs from the wire image of
`src` into the output slot `out`: id preserved, canonical type inferred from
the hint, flags zero, and the class-sized value prefix overwritten. -/
def reconstructInc (src out : BacnetObject) : BacnetObject :=
  ⟨src.object_id, infer_object_type (get_type_hint src.object_type), 0,
    valueBytes src ++ out.pv.drop (valueBytes src).length⟩

/-- A start environment in which both hardware transports are created but
fail their probe, and the Null transport allocation succeeds. -/
def envBothFail : DetectEnv := ⟨some ⟨.mesh, -7, 0⟩, some ⟨.direct, -7, 0⟩, true⟩


/-- The spec §6 ping example: from 0x0001 to the hub 0xFFFE, seq 0x2A, with
its CRC field holding the CCITT-FALSE value of its 8-byte header. -/
def pingFrame : Frame := ⟨0xAA, 0x0001, 0xFFFE, 0x2A, 0x01, [], 0x57A1⟩

/-- A 256-object batch of binary objects (BI #7, value 1). -/
def c5Batch : List BacnetObject :=
  List.replicate 256 ⟨7, 3, 1, List.replicate 16 1⟩

/-- A 256-slot output array of default objects. -/
def c5Outs : List BacnetObject := List.replicate 256 default

/-- An encoded Write frame from the hub to edge 0xFFBE whose two-byte payload
`03 00` is a truncated object (the type byte is missing). -/
def c10Bytes : List Nat :=
  [0xAA, 0xFE, 0xFF, 0xBE, 0xFF, 0x42, 0x20, 0x02, 0x03, 0x00] ++
    u16le (CRC16Calculate [0xAA, 0xFE, 0xFF, 0xBE, 0xFF, 0x42, 0x20, 0x02, 0x03, 0x00])

/-- A 17-object batch of binary objects (BI #1, value 0). -/
def c9Batch : List BacnetObject :=
  List.replicate 17 ⟨1, 3, 0, List.replicate 16 0⟩


/-- A single-object full-format batch: BO #3, value 1. -/
def c4Objs : List BacnetObject := [⟨3, 4, 0, List.replicate 16 1⟩]

/-- A Report frame carrying one incremental analog object (id 7, hint 0x80,
value bytes 00 00 BC 41). -/
def c4IncFrame : Frame :=
  ⟨0xAA, 0xFFBE, 0xFFFE, 1, 0x10, [1, 7, 0, 0x80, 0, 0, 0xBC, 0x41], 0⟩

/-- A Report frame whose payload is the full-format serialization of
`c4Objs`. -/
def c4FullFrame : Frame :=
  ⟨0xAA, 0xFFBE, 0xFFFE, 1, 0x10, c4Objs.length % 256 :: fullBytes c4Objs, 0⟩

/-- A two-object incremental witness batch: AI #7 = 23.5 and AI #8 = 24.0
(IEEE-754 bit patterns 0x41BC0000 and 0x41C00000, little-endian). -/
def c5WBatch : List BacnetObject :=
  [⟨7, 0, 1, [0, 0, 0xBC, 0x41] ++ List.replicate 12 0⟩,
   ⟨8, 0, 0, [0, 0, 0xC0, 0x41] ++ List.replicate 12 0⟩]

/-- A two-slot output array of default objects. -/
def c5WOuts : List BacnetObject := List.replicate 2 default

/-- An empty 64-node table. -/
def c6Table : NodeTable := ⟨64, []⟩

/-- The entry `update` creates for edge 0xFFBE at time 0. -/
def c6Entry : NodeEntry := ⟨0xFFBE, 0, 0, true, 0⟩

/-- A Report frame whose payload is the incremental serialization of the
17-object batch `c9Batch`. -/
def c9Frame : Frame :=
  ⟨0xAA, 0xFFBE, 0xFFFE, 1, 0x10, c9Batch.length % 256 :: incBytes c9Batch, 0⟩

/-- The frame carried by `c10Bytes`. -/
def c10Frame : Frame :=
  ⟨0xAA, 0xFFFE, 0xFFBE, 0x42, 0x20, [0x03, 0x00],
    CRC16Calculate [0xAA, 0xFE, 0xFF, 0xBE, 0xFF, 0x42, 0x20, 0x02, 0x03, 0x00]⟩

/-!
Theorems.  Helper lemmas come first, then one named theorem per claim
(with witnesses and counterexamples where required).
-/

theorem crcBitStep_eq_spec (crc : Nat) : crcBitStep crc = crcBitStepSpec crc := by
  have h : crc &&& 0x8000 = (crc.testBit 15).toNat * 2 ^ 15 := Nat.and_two_pow crc 15
  have h2 : crc <<< 1 = crc * 2 := by simp [Nat.shiftLeft_eq]
  unfold crcBitStep crcBitStepSpec
  rw [h, h2]
  cases hb : crc.testBit 15
  all_goals simp

set_option maxRecDepth 4000 in
theorem crcShiftLoop_eight (x : Nat) :
    crcShiftLoop 8 x =
      crcBitStepSpec (crcBitStepSpec (crcBitStepSpec (crcBitStepSpec
        (crcBitStepSpec (crcBitStepSpec (crcBitStepSpec (crcBitStepSpec x))))))) := by
  have h : crcShiftLoop 8 x =
      crcBitStep (crcBitStep (crcBitStep (crcBitStep
        (crcBitStep (crcBitStep (crcBitStep (crcBitStep x))))))) := rfl
  rw [h]
  simp only [crcBitStep_eq_spec]

set_option maxRecDepth 100000 in
/-- C2: the CRC-16 routine of core.h `CRC16::Calculate` implements CCITT-FALSE
exactly as the spec words it (init 0xFFFF, byte xor-ed into the high half,
8 shift steps with polynomial 0x1021 on a set high bit, 16-bit width, no
reflection, no final xor), and the CRC of the nine ASCII bytes "123456789"
is 0x29B1. -/
theorem C2_crc16_ccitt_false :
    CRC16Calculate [49, 50, 51, 52, 53, 54, 55, 56, 57] = 0x29B1 ∧
    ∀ data, CRC16Calculate data = crc16CcittSpec data := by
  refine ⟨by decide, fun data => ?_⟩
  unfold CRC16Calculate crc16CcittSpec
  congr 1
  funext crc b
  exact crcShiftLoop_eight _

/-- C3: frame decode returns `InvalidParam` for a buffer shorter than 10
bytes, a first byte other than 0xAA, a declared length over 128, or a buffer
shorter than `8 + len + 2`; with those checks passed it returns `CrcError`
when the trailing little-endian CRC differs from the CRC recomputed over the
8-byte header plus the `len` data bytes, and the decoded frame otherwise —
i.e. `Frame::decode` agrees with the claim's decision procedure everywhere. -/
theorem C3_decode_contract (buffer : List Nat) :
    Frame.decode buffer = decodeSpecC3 buffer := by
  unfold Frame.decode decodeSpecC3
  split_ifs <;> simp_all
  all_goals intros
  all_goals split_ifs <;> first | rfl | (exfalso; omega)

/-- C7: when neither the mesh transport nor the direct transport probes
successfully, `xslot_manager_start` installs the Null transport but — because
`null_start` returns `XSLOT_OK` — it returns 0 (Ok) with the manager running,
not `XSLOT_ERR_NO_DEVICE` (−7) as the spec claims. -/
theorem C7_start_installs_null_returns_ok :
    xslot_manager_start false .modeNone envBothFail =
      ⟨0, .modeNone, some nullTransport, true⟩ ∧
    (xslot_manager_start false .modeNone envBothFail).ret ≠ -7 := by
  constructor <;> decide

/-- C8 counterexample: with a synchronous command awaiting its terminal line
(state `WAITING_RESPONSE`), the URC line `+NNMI:FFBE,FFFE,-72,4,CAFEBABE` is
not dispatched to the URC handler (no URC event is produced) and is appended
to the intermediate response buffer instead — the claim's dispatch-while-
waiting behaviour fails at this input. -/
theorem C8_counterexample :
    (processLine ⟨.waitingResponse, [], false⟩
        ("+NNMI:FFBE,FFFE,-72,4,CAFEBABE".toList)).2 = [] ∧
    (processLine ⟨.waitingResponse, [], false⟩
        ("+NNMI:FFBE,FFFE,-72,4,CAFEBABE".toList)).1.response_buffer =
      ["+NNMI:FFBE,FFFE,-72,4,CAFEBABE".toList] := by
  constructor <;> rfl

/-- C8 (amended): a non-terminal line observed while a synchronous command is
awaiting `OK`/`ERROR` is not dispatched to the URC handler — it is appended to
the response buffer and returned among the command's intermediate lines; URC
lines (starting with `+`) are dispatched only in the Idle state.  In
particular a URC followed by `OK` completes the command successfully with the
URC as its single intermediate line and no URC event. -/
theorem C8_urc_swallowed_while_waiting :
    (∀ st line, st.mode = .waitingResponse → line ≠ [] →
      containsSub line ['O', 'K'] = false →
      containsSub line ['E', 'R', 'R', 'O', 'R'] = false →
      processLine st line =
        ({ st with response_buffer := st.response_buffer ++ [line] }, [])) ∧
    (∀ st line, st.mode = .idle → line.head? = some '+' →
      processLine st line = (st, [line])) ∧
    (∀ st urc, st.mode = .waitingResponse → urc ≠ [] →
      containsSub urc ['O', 'K'] = false →
      containsSub urc ['E', 'R', 'R', 'O', 'R'] = false →
      runLines st [urc, ['O', 'K']] =
        (⟨.idle, st.response_buffer ++ [urc], true⟩, [])) := by
  refine ⟨fun st line hm hne hok herr => ?_, fun st line hm hp => ?_,
    fun st urc hm hne hok herr => ?_⟩
  · simp [processLine, hne, hm, hok, herr]
  · have hne : line ≠ [] := by
      intro h
      rw [h] at hp
      simp at hp
    simp [processLine, hne, hm, hp]
  · have hOK : containsSub ['O', 'K'] ['O', 'K'] = true := by decide
    have h1 : processLine st urc =
        ({ st with response_buffer := st.response_buffer ++ [urc] }, []) := by
      simp [processLine, hne, hm, hok, herr]
    have h2 : processLine { st with response_buffer := st.response_buffer ++ [urc] }
        ['O', 'K'] =
        (⟨.idle, st.response_buffer ++ [urc], true⟩, []) := by
      simp [processLine, hm, hOK]
    simp [runLines, h1, h2]

/-- C8 amended, witness: the spec's scenario 6 input — a pending command, the
`+NNMI` URC, then `OK` — ends Idle and successful with the URC sitting in the
intermediate lines and no URC dispatched. -/
theorem C8_urc_swallowed_witness :
    (⟨.waitingResponse, [], false⟩ : ATDriverState).mode = .waitingResponse ∧
    runLines ⟨.waitingResponse, [], false⟩
        ["+NNMI:FFBE,FFFE,-72,4,CAFEBABE".toList, ['O', 'K']] =
      (⟨.idle, ["+NNMI:FFBE,FFFE,-72,4,CAFEBABE".toList], true⟩, []) :=
  ⟨rfl, C8_urc_swallowed_while_waiting.2.2 _ _ rfl (by decide) (by decide)
    (by decide)⟩

theorem crcBitStep_lt (x : Nat) : crcBitStep x < 65536 := by
  unfold crcBitStep
  split <;> exact Nat.mod_lt _ (by norm_num)

theorem crcShiftLoop_lt (n x : Nat) : crcShiftLoop (n + 1) x < 65536 := by
  induction n generalizing x with
  | zero => exact crcBitStep_lt x
  | succ m ih =>
    show crcShiftLoop (m + 1) (crcBitStep x) < 65536
    exact ih _

theorem crc16_lt (l : List Nat) : CRC16Calculate l < 65536 := by
  unfold CRC16Calculate
  have h : ∀ (l : List Nat) (init : Nat), init < 65536 →
      l.foldl (fun crc b => crcShiftLoop 8 ((crc ^^^ (b <<< 8)) % 65536)) init < 65536 := by
    intro l
    induction l with
    | nil => intro init h; exact h
    | cons b rest ih =>
      intro init h
      exact ih _ (crcShiftLoop_lt 7 _)
  exact h l 0xFFFF (by norm_num)

theorem decode_wire (x1 x2 x3 x4 x5 x6 L : Nat) (data : List Nat) (c1 c2 : Nat)
    (hdlen : data.length = L) (hL : L ≤ 128) :
    Frame.decode (170 :: x1 :: x2 :: x3 :: x4 :: x5 :: x6 :: L :: (data ++ [c1, c2])) =
      if CRC16Calculate (170 :: x1 :: x2 :: x3 :: x4 :: x5 :: x6 :: L :: data) ≠ c1 + 256 * c2
      then .error .crcError
      else .ok ⟨170, x1 + 256 * x2, x3 + 256 * x4, x5, x6, data, c1 + 256 * c2⟩ := by
  have hB : (170 :: x1 :: x2 :: x3 :: x4 :: x5 :: x6 :: L :: (data ++ [c1, c2])) =
      [170, x1, x2, x3, x4, x5, x6, L] ++ (data ++ [c1, c2]) := rfl
  have hlen : (170 :: x1 :: x2 :: x3 :: x4 :: x5 :: x6 :: L :: (data ++ [c1, c2])).length = 10 + L := by
    simp [hdlen]
    omega
  have ht1 : List.take (8 + L) (170 :: x1 :: x2 :: x3 :: x4 :: x5 :: x6 :: L :: (data ++ [c1, c2])) =
      170 :: x1 :: x2 :: x3 :: x4 :: x5 :: x6 :: L :: data := by
    rw [hB, List.take_append_eq_append_take]
    rw [List.take_of_length_le (by simp)]
    simp [List.take_left' hdlen]
  have hg1 : (170 :: x1 :: x2 :: x3 :: x4 :: x5 :: x6 :: L :: (data ++ [c1, c2]))[8 + L]?.getD 0 = c1 := by
    rw [hB, ← List.getD_eq_getElem?_getD,
      List.getD_append_right _ _ _ _ (by simp)]
    have h8 : 8 + L - List.length [170, x1, x2, x3, x4, x5, x6, L] = L := by simp
    rw [h8, List.getD_append_right _ _ _ _ (by omega), hdlen]
    simp
  have hg2 : (x1 :: x2 :: x3 :: x4 :: x5 :: x6 :: L :: (data ++ [c1, c2]))[8 + L]?.getD 0 = c2 := by
    have hB2 : (x1 :: x2 :: x3 :: x4 :: x5 :: x6 :: L :: (data ++ [c1, c2])) =
        [x1, x2, x3, x4, x5, x6, L] ++ (data ++ [c1, c2]) := rfl
    rw [hB2, ← List.getD_eq_getElem?_getD,
      List.getD_append_right _ _ _ _ (by simp; omega)]
    have h7 : 8 + L - List.length [x1, x2, x3, x4, x5, x6, L] = L + 1 := by simp; omega
    rw [h7, List.getD_append_right _ _ _ _ (by omega), hdlen]
    simp
  unfold Frame.decode
  rw [hlen]
  norm_num
  rw [if_neg (show ¬ (128 < L) by omega), if_neg (show ¬ (10 + L < 8 + L + 2) by omega)]
  rw [ht1, hg1, hg2, List.take_left' hdlen]

/-- C1: for every well-formed frame with sync byte 0xAA, payload length at
most 128 and its CRC field holding the CCITT CRC of header plus payload (the
§3 data-model invariant), encoding into a large-enough buffer succeeds,
produces exactly `8 + len + 2` bytes, and decoding those bytes yields the
frame back. -/
theorem C1_encode_decode_roundtrip (f : Frame) (cap : Nat)
    (hsync : f.sync = 0xAA) (hwf : f.WF)
    (hcrc : f.crc = CRC16Calculate (f.headerBytes ++ f.data))
    (hcap : 8 + f.data.length + 2 ≤ cap) :
    f.encode cap = .ok (f.headerBytes ++ f.data ++ u16le f.crc) ∧
    (f.headerBytes ++ f.data ++ u16le f.crc).length = 8 + f.data.length + 2 ∧
    Frame.decode (f.headerBytes ++ f.data ++ u16le f.crc) = .ok f := by
  obtain ⟨s, fr, toA, sq, cm, d, cr⟩ := f
  obtain ⟨hs, hfr, hto, hsq, hcm, hdl, hdb, hcr⟩ := hwf
  simp only at hsync hcrc hcap hs hfr hto hsq hcm hdl hdb hcr
  subst hsync
  have hcrlt : cr < 65536 := by rw [hcrc]; exact crc16_lt _
  have hhdr : Frame.headerBytes ⟨0xAA, fr, toA, sq, cm, d, cr⟩ =
      170 :: (fr % 256) :: (fr / 256 % 256) :: (toA % 256) :: (toA / 256 % 256) ::
        sq :: cm :: [d.length] := by
    simp [Frame.headerBytes, u16le, Nat.mod_eq_of_lt hsq, Nat.mod_eq_of_lt hcm,
      Nat.mod_eq_of_lt (show d.length < 256 by omega)]
  refine ⟨?_, ?_, ?_⟩
  · unfold Frame.encode
    rw [if_neg (by simp; omega)]
    simp only []
    rw [← hcrc]
  · simp [Frame.headerBytes, u16le]
    omega
  · have hbuf : Frame.headerBytes ⟨0xAA, fr, toA, sq, cm, d, cr⟩ ++ d ++ u16le cr =
        170 :: (fr % 256) :: (fr / 256 % 256) :: (toA % 256) :: (toA / 256 % 256) ::
          sq :: cm :: d.length :: (d ++ [cr % 256, cr / 256 % 256]) := by
      rw [hhdr]
      simp [u16le]
    rw [hbuf]
    rw [decode_wire _ _ _ _ _ _ _ _ _ _ rfl hdl]
    have hcval : cr % 256 + 256 * (cr / 256 % 256) = cr := by omega
    rw [hcval]
    have hcrc2 : CRC16Calculate (170 :: fr % 256 :: fr / 256 % 256 :: toA % 256 ::
        toA / 256 % 256 :: sq :: cm :: d.length :: d) = cr := by
      rw [hcrc, hhdr]
      simp
    rw [if_neg (by simp [hcrc2])]
    congr 1
    simp only [Frame.mk.injEq]
    simp
    constructor <;> omega

set_option maxRecDepth 100000 in
/-- C1 witness: the spec §6 ping frame round-trips through encode and decode
in a 138-byte buffer. -/
theorem C1_encode_decode_roundtrip_witness :
    (pingFrame.sync = 0xAA ∧ pingFrame.WF ∧
      pingFrame.crc = CRC16Calculate (pingFrame.headerBytes ++ pingFrame.data) ∧
      8 + pingFrame.data.length + 2 ≤ 138) ∧
    (pingFrame.encode 138 = .ok (pingFrame.headerBytes ++ pingFrame.data ++ u16le pingFrame.crc) ∧
      (pingFrame.headerBytes ++ pingFrame.data ++ u16le pingFrame.crc).length =
        8 + pingFrame.data.length + 2 ∧
      Frame.decode (pingFrame.headerBytes ++ pingFrame.data ++ u16le pingFrame.crc) =
        .ok pingFrame) :=
  ⟨⟨rfl, by decide, by decide, by decide⟩,
    C1_encode_decode_roundtrip pingFrame 138 rfl (by decide) (by decide) (by decide)⟩

theorem writeBytes_ok (w : BufferWriter) (bs : List Nat)
    (h : w.buf.length + bs.length ≤ w.cap) :
    w.writeBytes bs = some ⟨w.cap, w.buf ++ bs⟩ := by
  unfold BufferWriter.writeBytes
  rw [if_neg (by omega)]

theorem serializeObjsInc_ok (objs : List BacnetObject) : ∀ (w : BufferWriter),
    w.buf.length + (incBytes objs).length ≤ w.cap →
    serializeObjsInc w objs = some ⟨w.cap, w.buf ++ incBytes objs⟩ := by
  induction objs with
  | nil => intro w h; simp [serializeObjsInc, incBytes]
  | cons o rest ih =>
    intro w h
    rw [incBytes] at h
    simp only [List.length_append] at h
    simp only [serializeObjsInc]
    rw [writeBytes_ok w _ (by omega)]
    simp only [Option.bind_eq_bind, Option.some_bind]
    rw [ih ⟨w.cap, w.buf ++ objBytesInc o⟩ (by simp; omega)]
    simp [incBytes]

theorem serialize_incremental_batch_ok (objs : List BacnetObject) (cap : Nat)
    (hne : objs ≠ []) (hcap : 1 + (incBytes objs).length ≤ cap) :
    serialize_incremental_batch objs cap = .ok (objs.length % 256 :: incBytes objs) := by
  unfold serialize_incremental_batch
  rw [if_neg (by simp [hne])]
  rw [writeBytes_ok ⟨cap, []⟩ _ (by simp; omega)]
  simp only [Option.some_bind, List.nil_append]
  rw [serializeObjsInc_ok _ ⟨cap, [objs.length % 256]⟩ (by simp; omega)]
  simp

theorem serializeObjsFull_ok (objs : List BacnetObject) : ∀ (w : BufferWriter),
    w.buf.length + (fullBytes objs).length ≤ w.cap →
    serializeObjsFull w objs = some ⟨w.cap, w.buf ++ fullBytes objs⟩ := by
  induction objs with
  | nil => intro w h; simp [serializeObjsFull, fullBytes]
  | cons o rest ih =>
    intro w h
    rw [fullBytes] at h
    simp only [List.length_append] at h
    simp only [serializeObjsFull]
    rw [writeBytes_ok w _ (by omega)]
    simp only [Option.bind_eq_bind, Option.some_bind]
    rw [ih ⟨w.cap, w.buf ++ objBytesFull o⟩ (by simp; omega)]
    simp [fullBytes]

theorem serialize_batch_ok (objs : List BacnetObject) (cap : Nat)
    (hne : objs ≠ []) (hcap : 1 + (fullBytes objs).length ≤ cap) :
    serialize_batch objs cap = .ok (objs.length % 256 :: fullBytes objs) := by
  unfold serialize_batch
  rw [if_neg (by simp [hne])]
  rw [writeBytes_ok ⟨cap, []⟩ _ (by simp; omega)]
  simp only [Option.some_bind, List.nil_append]
  rw [serializeObjsFull_ok _ ⟨cap, [objs.length % 256]⟩ (by simp; omega)]
  simp
theorem valueBytes_length_analog (o : BacnetObject) (hpv : o.pv.length = 16)
    (h : is_analog_type o.object_type = true) : (valueBytes o).length = 4 := by
  unfold valueBytes
  rw [h]
  simp [hpv]

theorem deserObjInc_stream (o out : BacnetObject) (tail : List Nat)
    (hid : o.object_id < 65536) (hpv : o.pv.length = 16) :
    deserObjInc (objBytesInc o ++ tail) out = .ok (reconstructInc o out, tail) := by
  have hread : readBytesN (valueBytes o).length (valueBytes o ++ tail) =
      some (valueBytes o, tail) := by
    unfold readBytesN
    rw [if_pos (by simp)]
    rw [List.take_left' rfl, List.drop_left' rfl]
  have hstream : objBytesInc o ++ tail =
      (o.object_id % 256) :: (o.object_id / 256 % 256) ::
        get_type_hint o.object_type :: (valueBytes o ++ tail) := by
    simp [objBytesInc, u16le]
  rw [hstream]
  unfold deserObjInc
  simp only [readU16, readU8]
  have hidval : o.object_id % 256 + 256 * (o.object_id / 256 % 256) = o.object_id := by omega
  rw [hidval]
  by_cases ha : is_analog_type o.object_type
  · have hh : get_type_hint o.object_type = 128 := by
      unfold get_type_hint
      rw [ha]
      rfl
    have hvl : (valueBytes o).length = 4 := by
      unfold valueBytes
      rw [ha]
      simp [hpv]
    rw [hvl] at hread
    rw [hh, if_pos (by decide), hread]
    simp [reconstructInc, BacnetObject.setPv, hh]
  · by_cases hb : is_binary_type o.object_type
    · have hh : get_type_hint o.object_type = 129 := by
        unfold get_type_hint
        rw [Bool.not_eq_true] at ha
        rw [ha, hb]
        rfl
      have hvl : (valueBytes o).length = 1 := by
        unfold valueBytes
        rw [Bool.not_eq_true] at ha
        rw [ha, hb]
        simp [hpv]
      rw [hvl] at hread
      rw [hh, if_neg (by decide), if_pos (by decide), hread]
      simp [reconstructInc, BacnetObject.setPv, hh]
    · have hh : get_type_hint o.object_type = 130 := by
        unfold get_type_hint
        rw [Bool.not_eq_true] at ha hb
        rw [ha, hb]
        rfl
      have hvl : (valueBytes o).length = 16 := by
        unfold valueBytes
        rw [Bool.not_eq_true] at ha hb
        rw [ha, hb]
        simp [hpv]
      rw [hvl] at hread
      rw [hh, if_neg (by decide), if_neg (by decide), hread]
      simp [reconstructInc, BacnetObject.setPv, hh]

theorem incBytes_append (l1 l2 : List BacnetObject) :
    incBytes (l1 ++ l2) = incBytes l1 ++ incBytes l2 := by
  induction l1 with
  | nil => simp [incBytes]
  | cons o rest ih => simp [incBytes, ih]

theorem deserLoopInc_stream (k : Nat) :
    ∀ (objs outs : List BacnetObject) (rest : List Nat),
    k ≤ objs.length → k ≤ outs.length →
    (∀ o ∈ objs, o.object_id < 65536 ∧ o.pv.length = 16) →
    deserLoop deserObjInc k (incBytes objs ++ rest) outs =
      .ok (List.zipWith reconstructInc (objs.take k) (outs.take k) ++ outs.drop k) := by
  induction k with
  | zero =>
    intro objs outs rest _ _ _
    simp [deserLoop]
  | succ m ih =>
    intro objs outs rest hk1 hk2 hwf
    match objs, outs with
    | [], _ => simp at hk1
    | _ :: _, [] => simp at hk2
    | o :: objs, out :: outs =>
      have hstep : incBytes (o :: objs) ++ rest =
          objBytesInc o ++ (incBytes objs ++ rest) := by
        simp [incBytes]
      rw [hstep]
      simp only [deserLoop]
      rw [deserObjInc_stream o out _ (hwf o (by simp)).1 (hwf o (by simp)).2]
      dsimp only
      rw [ih objs outs rest (by simp at hk1; omega) (by simp at hk2; omega)
        (fun x hx => hwf x (by simp [hx]))]
      simp
theorem deserialize_incremental_batch_stream (objs outs : List BacnetObject)
    (hne : objs ≠ []) (h255 : objs.length ≤ 255) (hlen : outs.length = objs.length)
    (hwf : ∀ o ∈ objs, o.object_id < 65536 ∧ o.pv.length = 16) :
    deserialize_incremental_batch (objs.length % 256 :: incBytes objs) outs =
      .ok (objs.length, List.zipWith reconstructInc objs outs) := by
  have hone : objs.length ≥ 1 := by
    cases objs with
    | nil => simp at hne
    | cons a l => simp
  have houts : outs ≠ [] := by
    intro h
    rw [h] at hlen
    simp at hlen
    omega
  unfold deserialize_incremental_batch
  rw [if_neg (by simp [houts])]
  simp only [readU8]
  have hc : objs.length % 256 = objs.length := Nat.mod_eq_of_lt (by omega)
  rw [hc]
  rw [if_neg (by omega)]
  have hloop := deserLoopInc_stream objs.length objs outs [] (le_refl _) (by omega) hwf
  rw [List.append_nil] at hloop
  rw [hloop]
  have htake : List.take objs.length outs = outs :=
    List.take_of_length_le (le_of_eq hlen)
  have hdrop : List.drop objs.length outs = [] := by
    rw [← hlen]
    exact List.drop_length outs
  rw [List.take_length, htake, hdrop]
  simp
theorem reconstructInc_spec (src out : BacnetObject)
    (hwf : src.WF) (hout : out.pv.length = 16) :
    (reconstructInc src out).object_id = src.object_id ∧
    (reconstructInc src out).flags = 0 ∧
    (is_analog_type src.object_type = true →
      (reconstructInc src out).object_type = OBJ_ANALOG_INPUT ∧
      (reconstructInc src out).pv.take 4 = src.pv.take 4) ∧
    (is_binary_type src.object_type = true →
      (reconstructInc src out).object_type = OBJ_BINARY_INPUT ∧
      (reconstructInc src out).pv.take 1 = src.pv.take 1) ∧
    (is_analog_type src.object_type = false → is_binary_type src.object_type = false →
      (reconstructInc src out).object_type = OBJ_ANALOG_VALUE ∧
      (reconstructInc src out).pv = src.pv) := by
  obtain ⟨hid, hty, hfl, hpv, hpb⟩ := hwf
  refine ⟨rfl, rfl, fun ha => ?_, fun hb => ?_, fun ha hb => ?_⟩
  · have hh : get_type_hint src.object_type = 128 := by
      unfold get_type_hint
      rw [ha]
      rfl
    have hvb : valueBytes src = src.pv.take 4 := by
      unfold valueBytes
      rw [ha]
      simp
    constructor
    · have he : (128 : Nat) &&& 15 = 0 := by decide
      simp [reconstructInc, hh, infer_object_type, he, OBJ_ANALOG_INPUT]
    · simp only [reconstructInc, hvb]
      rw [List.take_append_eq_append_take]
      simp [hpv]
  · have hna : is_analog_type src.object_type = false := by
      unfold is_analog_type
      unfold is_binary_type at hb
      rcases Bool.or_eq_true_iff.mp hb with h | h
      · rcases Bool.or_eq_true_iff.mp h with h2 | h2 <;> simp_all [OBJ_BINARY_INPUT,
          OBJ_BINARY_OUTPUT, OBJ_ANALOG_INPUT, OBJ_ANALOG_OUTPUT, OBJ_ANALOG_VALUE]
      · simp_all [OBJ_BINARY_VALUE, OBJ_ANALOG_INPUT, OBJ_ANALOG_OUTPUT, OBJ_ANALOG_VALUE]
    have hh : get_type_hint src.object_type = 129 := by
      unfold get_type_hint
      rw [hna, hb]
      rfl
    have hvb : valueBytes src = src.pv.take 1 := by
      unfold valueBytes
      rw [hna, hb]
      simp
    constructor
    · have he : (129 : Nat) &&& 15 = 1 := by decide
      simp [reconstructInc, hh, infer_object_type, he, OBJ_BINARY_INPUT]
    · simp only [reconstructInc, hvb]
      rw [List.take_append_eq_append_take]
      simp [hpv]
  · have hh : get_type_hint src.object_type = 130 := by
      unfold get_type_hint
      rw [ha, hb]
      rfl
    have hvb : valueBytes src = src.pv := by
      unfold valueBytes
      rw [ha, hb]
      simp [List.take_of_length_le (le_of_eq hpv)]
    constructor
    · have he : (130 : Nat) &&& 15 = 2 := by decide
      simp [reconstructInc, hh, infer_object_type, he, OBJ_ANALOG_VALUE]
    · simp only [reconstructInc, hvb]
      simp [hpv, hout]
theorem type_le5_not_inc (t : Nat) (h : t ≤ 5) : is_incremental_format t = false := by
  interval_cases t <;> decide

theorem fullBytes_cons_shape (o : BacnetObject) (rest : List BacnetObject) :
    fullBytes (o :: rest) = (o.object_id % 256) :: (o.object_id / 256 % 256) ::
      (o.object_type % 256) :: (o.flags % 256) :: (valueBytes o ++ fullBytes rest) := by
  simp [fullBytes, objBytesFull, u16le]

/-- C4: `parse_report` detects the dialect of a Report frame with payload
length at least four by bit 7 of the fourth payload byte (incremental when
set, full otherwise); a batch serialized in the full dialect whose first
object's type is one of the six defined values (≤ 5) puts that type in the
fourth byte with bit 7 clear, so such a Report is always parsed as full. -/
theorem C4_report_dialect_detection :
    (∀ f outs, f.cmd = CMD_REPORT → 4 ≤ f.data.length →
      parse_report f outs =
        if is_incremental_format (f.data.getD 3 0) = true
        then deserialize_incremental_batch f.data outs
        else deserialize_batch f.data outs) ∧
    (∀ objs cap, objs ≠ [] → (∀ o ∈ objs, o.WF) →
      (objs.getD 0 default).object_type ≤ 5 → 1 + (fullBytes objs).length ≤ cap →
      serialize_batch objs cap = .ok (objs.length % 256 :: fullBytes objs) ∧
      (objs.length % 256 :: fullBytes objs).getD 3 0 = (objs.getD 0 default).object_type ∧
      is_incremental_format ((objs.getD 0 default).object_type) = false) ∧
    (∀ f objs outs, f.cmd = CMD_REPORT → objs ≠ [] → (∀ o ∈ objs, o.WF) →
      (objs.getD 0 default).object_type ≤ 5 →
      f.data = objs.length % 256 :: fullBytes objs →
      parse_report f outs = deserialize_batch f.data outs) := by
  refine ⟨fun f outs hcmd hlen4 => ?_, fun objs cap hne hwf ht5 hcap => ?_,
    fun f objs outs hcmd hne hwf ht5 hdata => ?_⟩
  · unfold parse_report
    rw [if_neg (by simp [hcmd]), if_neg (by omega)]
    by_cases hinc : is_incremental_format (f.data.getD 3 0) = true
    · rw [if_pos ⟨by omega, hinc⟩, if_pos hinc]
    · rw [if_neg (fun h => hinc h.2), if_neg hinc]
  · obtain ⟨o, rest, rfl⟩ := List.exists_cons_of_ne_nil hne
    have hto : o.object_type < 256 := (hwf o (by simp)).2.1
    have hgd : ((o :: rest).getD 0 default) = o := rfl
    rw [hgd] at ht5 ⊢
    refine ⟨serialize_batch_ok _ _ (by simp) hcap, ?_, type_le5_not_inc _ ht5⟩
    rw [fullBytes_cons_shape]
    show o.object_type % 256 = o.object_type
    exact Nat.mod_eq_of_lt hto
  · unfold parse_report
    rw [if_neg (by simp [hcmd])]
    have hlen1 : ¬ (f.data.length < 1) := by rw [hdata]; simp
    rw [if_neg hlen1]
    obtain ⟨o, rest, rfl⟩ := List.exists_cons_of_ne_nil hne
    have hto : o.object_type < 256 := (hwf o (by simp)).2.1
    have hgd : ((o :: rest).getD 0 default) = o := rfl
    rw [hgd] at ht5
    have hbyte : f.data.getD 3 0 = o.object_type := by
      rw [hdata, fullBytes_cons_shape]
      show o.object_type % 256 = o.object_type
      exact Nat.mod_eq_of_lt hto
    rw [if_neg ?_]
    intro h
    rw [hbyte] at h
    have := type_le5_not_inc o.object_type ht5
    rw [this] at h
    exact Bool.false_ne_true h.2
theorem get_type_hint_bit7 (t : Nat) : is_incremental_format (get_type_hint t) = true := by
  unfold get_type_hint is_incremental_format
  split_ifs <;> decide

theorem incBytes_length_ge (objs : List BacnetObject)
    (hpv : ∀ o ∈ objs, o.pv.length = 16) :
    4 * objs.length ≤ (incBytes objs).length := by
  induction objs with
  | nil => simp [incBytes]
  | cons o rest ih =>
    have h1 : 1 ≤ (valueBytes o).length := by
      unfold valueBytes
      have := hpv o (by simp)
      split_ifs <;> simp [this]
    have h2 := ih (fun x hx => hpv x (by simp [hx]))
    simp only [incBytes, List.length_append, List.length_cons]
    simp only [objBytesInc, u16le, List.length_append, List.length_cons]
    simp at h2 ⊢
    omega

theorem incBytes_cons_shape (o : BacnetObject) (rest : List BacnetObject) :
    incBytes (o :: rest) = (o.object_id % 256) :: (o.object_id / 256 % 256) ::
      get_type_hint o.object_type :: (valueBytes o ++ incBytes rest) := by
  simp [incBytes, objBytesInc, u16le]

/-- C9: the manager's Report dispatch parses into a 16-slot array: a Report
frame whose payload is the incremental serialization of more than 16 objects
declares a count above 16, and `handle_frame` invokes the report callback
with exactly the first 16 decoded objects, the remainder silently dropped
and no error produced. -/
theorem C9_report_truncated_to_16 (localAddr now : Nat) (tbl : NodeTable) (f : Frame)
    (objs : List BacnetObject)
    (hcmd : f.cmd = CMD_REPORT) (hgt : 16 < objs.length)
    (hwf : ∀ o ∈ objs, o.WF)
    (hdata : f.data = objs.length % 256 :: incBytes objs)
    (hfit : f.data.length ≤ 129) :
    (handle_frame localAddr now tbl f).2 =
      (if (tbl.update now f.fromAddr 0).2 then [MgrEvent.nodeOnline f.fromAddr] else []) ++
      [MgrEvent.reportEvt f.fromAddr
        (List.zipWith reconstructInc (objs.take 16) (List.replicate 16 default))] ∧
    (List.zipWith reconstructInc (objs.take 16) (List.replicate 16 default)).length = 16 := by
  have hpv : ∀ o ∈ objs, o.pv.length = 16 := fun o ho => (hwf o ho).2.2.2.1
  have hge := incBytes_length_ge objs hpv
  have hdl : f.data.length = 1 + (incBytes objs).length := by rw [hdata]; simp; omega
  have hn : objs.length ≤ 32 := by omega
  have hc : objs.length % 256 = objs.length := Nat.mod_eq_of_lt (by omega)
  -- the parse_report call inside the Report branch
  have hparse : parse_report f (List.replicate 16 default) =
      .ok (16, List.zipWith reconstructInc (objs.take 16) (List.replicate 16 default)) := by
    obtain ⟨o, rest, hobjs⟩ := List.exists_cons_of_ne_nil
      (show objs ≠ [] by intro h; rw [h] at hgt; simp at hgt)
    unfold parse_report
    rw [if_neg (by simp [hcmd])]
    rw [if_neg (by omega)]
    have hbyte : f.data.getD 3 0 = get_type_hint o.object_type := by
      rw [hdata, hobjs, incBytes_cons_shape]
      rfl
    rw [if_pos ⟨by omega, by rw [hbyte]; exact get_type_hint_bit7 _⟩]
    -- incremental deserialization of the stream, clamped to 16
    unfold deserialize_incremental_batch
    rw [if_neg (by simp [hdata])]
    rw [hdata]
    simp only [readU8]
    rw [hc]
    rw [if_pos (by simp; omega)]
    have hsplit : incBytes objs =
        incBytes (objs.take 16) ++ incBytes (objs.drop 16) := by
      rw [← incBytes_append, List.take_append_drop]
    rw [hsplit]
    simp only [List.length_replicate]
    have htl : (List.take 16 objs).length = 16 := by
      simp [List.length_take]
      omega
    have hloop := deserLoopInc_stream 16 (objs.take 16) (List.replicate 16 default)
      (incBytes (objs.drop 16)) (by omega) (by simp)
      (fun o ho => ⟨(hwf o (List.take_subset _ _ ho)).1,
        (hwf o (List.take_subset _ _ ho)).2.2.2.1⟩)
    rw [show List.replicate 16 (default : BacnetObject) =
      List.replicate 16 default from rfl] at hloop
    rw [hloop]
    have ht16 : List.take 16 (List.take 16 objs) = List.take 16 objs := by
      rw [List.take_take]
      norm_num
    rw [ht16]
    simp
  have hzl : (List.zipWith reconstructInc (objs.take 16) (List.replicate 16 default)).length = 16 := by
    simp [List.length_zipWith]
    omega
  refine ⟨?_, hzl⟩
  unfold handle_frame
  rw [hcmd]
  simp only [CMD_PING, CMD_PONG, CMD_REPORT, CMD_QUERY, CMD_RESPONSE, CMD_WRITE]
  norm_num
  rw [hparse]
  dsimp only
  rw [if_pos (by norm_num)]
  rw [List.take_of_length_le (le_of_eq hzl)]
/-- C10: on a received Write frame addressed to the local node or broadcast,
the manager always emits a WriteAck with result 0x00 and the seq of the
received frame — the last event of the dispatch — and when the payload fails
to deserialize the dispatch consists of nothing but the node-table event and
that WriteAck (no write callback). -/
theorem C10_write_ack_unconditional (localAddr now : Nat) (tbl : NodeTable) (bytes : List Nat) (f : Frame)
    (hdec : Frame.decode bytes = .ok f)
    (haddr : f.toAddr = localAddr ∨ f.toAddr = 0)
    (hcmd : f.cmd = CMD_WRITE) :
    (on_frame_received localAddr now tbl bytes).2.getLast? =
      some (MgrEvent.sent (build_write_ack localAddr f.fromAddr f.seq 0)) ∧
    (∀ e, parse_write f default = .error e →
      (on_frame_received localAddr now tbl bytes).2 =
        (if (tbl.update now f.fromAddr 0).2 then [MgrEvent.nodeOnline f.fromAddr] else []) ++
        [MgrEvent.sent (build_write_ack localAddr f.fromAddr f.seq 0)]) := by
  have hofr : on_frame_received localAddr now tbl bytes = handle_frame localAddr now tbl f := by
    unfold on_frame_received
    rw [hdec]
    dsimp only
    rw [if_neg (by rcases haddr with h | h <;> simp [h])]
  have hhf : (handle_frame localAddr now tbl f).2 =
      (if (tbl.update now f.fromAddr 0).2 then [MgrEvent.nodeOnline f.fromAddr] else []) ++
      ((match parse_write f default with
        | .ok (o, _) => [MgrEvent.writeEvt f.fromAddr o]
        | .error _ => []) ++
       [MgrEvent.sent (build_write_ack localAddr f.fromAddr f.seq 0)]) := by
    unfold handle_frame
    rw [hcmd]
    simp only [CMD_PING, CMD_PONG, CMD_REPORT, CMD_QUERY, CMD_RESPONSE, CMD_WRITE]
    norm_num
  rw [hofr, hhf]
  constructor
  · rcases hpw : parse_write f default with e | ⟨o, r⟩
    · dsimp only
      rw [← List.append_assoc, List.getLast?_concat]
    · dsimp only
      rw [← List.append_assoc, List.getLast?_concat]
  · intro e hpw
    rw [hpw]
    simp
theorem findAddr_map (g : NodeEntry → NodeEntry) (hg : ∀ e, (g e).addr = e.addr) :
    ∀ (es : List NodeEntry) (a : Nat),
    findAddr (es.map g) a = (findAddr es a).map g := by
  intro es a
  induction es with
  | nil => simp [findAddr]
  | cons e rest ih =>
    simp only [List.map_cons, findAddr, hg e]
    by_cases h : e.addr = a
    · simp [h]
    · simp [h, ih]

theorem findAddr_eq_none_iff (es : List NodeEntry) (a : Nat) :
    findAddr es a = none ↔ a ∉ es.map NodeEntry.addr := by
  induction es with
  | nil => simp [findAddr]
  | cons e rest ih =>
    simp only [findAddr, List.map_cons, List.mem_cons]
    by_cases h : e.addr = a
    · simp [h]
    · simp [h, ih]
      intro hx
      exact fun hc => h hc.symm

theorem updateExisting_none (now : Nat) (a : Nat) (rssi : Int) :
    ∀ es : List NodeEntry, findAddr es a = none → updateExisting now a rssi es = none := by
  intro es
  induction es with
  | nil => intro h; rfl
  | cons e rest ih =>
    intro h
    simp only [findAddr] at h
    by_cases he : e.addr = a
    · simp [he] at h
    · simp only [updateExisting, he, if_false]
      rw [ih (by simpa [he] using h)]

theorem updateExisting_found (now : Nat) (a : Nat) (rssi : Int) :
    ∀ (es : List NodeEntry) (e : NodeEntry), findAddr es a = some e →
    ∃ es', updateExisting now a rssi es = some (es', !e.online) ∧
      findAddr es' a = some { e with last_seen := now, rssi := rssi, online := true } ∧
      es'.map NodeEntry.addr = es.map NodeEntry.addr := by
  intro es
  induction es with
  | nil => intro e h; simp [findAddr] at h
  | cons x rest ih =>
    intro e h
    simp only [findAddr] at h
    by_cases hx : x.addr = a
    · rw [if_pos hx] at h
      have hxe : x = e := by injection h
      subst hxe
      refine ⟨{ x with last_seen := now, rssi := rssi, online := true } :: rest,
        ?_, ?_, ?_⟩
      · simp [updateExisting, hx]
      · simp [findAddr, hx]
      · simp [hx]
    · rw [if_neg hx] at h
      obtain ⟨rest', h1, h2, h3⟩ := ih e h
      refine ⟨x :: rest', ?_, ?_, ?_⟩
      · simp only [updateExisting, hx, if_false]
        rw [h1]
      · simp [findAddr, hx, h2]
      · simp [h3]
theorem oldestOfflineAux_lt (es : List NodeEntry) :
    ∀ (i btime : Nat) (best : Option Nat) (j : Nat),
    oldestOfflineAux es i btime best = some j →
    best = some j ∨ (i ≤ j ∧ j < i + es.length) := by
  induction es with
  | nil =>
    intro i btime best j h
    exact Or.inl h
  | cons e rest ih =>
    intro i btime best j h
    simp only [oldestOfflineAux] at h
    by_cases hc : (!e.online && decide (e.last_seen < btime)) = true
    · rw [if_pos hc] at h
      rcases ih (i + 1) e.last_seen (some i) j h with h2 | h2
      · injection h2 with h2
        subst h2
        right
        simp
      · right
        simp
        omega
    · rw [if_neg hc] at h
      rcases ih (i + 1) btime best j h with h2 | h2
      · exact Or.inl h2
      · right
        simp
        omega

theorem oldestOfflineIdx_lt (es : List NodeEntry) (j : Nat)
    (h : oldestOfflineIdx es = some j) : j < es.length := by
  rcases oldestOfflineAux_lt es 0 4294967295 none j h with h2 | h2
  · simp at h2
  · omega

theorem findAddr_set_fresh (a : Nat) (x : NodeEntry) (hx : x.addr = a) :
    ∀ (es : List NodeEntry) (j : Nat), findAddr es a = none → j < es.length →
    findAddr (es.set j x) a = some x := by
  intro es
  induction es with
  | nil => intro j h hj; simp at hj
  | cons e rest ih =>
    intro j h hj
    simp only [findAddr] at h
    by_cases he : e.addr = a
    · simp [he] at h
    · cases j with
      | zero => simp [findAddr, hx]
      | succ m =>
        simp only [List.set_cons_succ, findAddr, he, if_false]
        exact ih m (by simpa [he] using h) (by simp at hj; omega)

theorem nodup_set_fresh {α : Type} [DecidableEq α] (l : List α) (x : α)
    (hl : l.Nodup) (hx : x ∉ l) : ∀ j, (l.set j x).Nodup := by
  induction l with
  | nil => intro j; simp
  | cons e rest ih =>
    intro j
    cases j with
    | zero =>
      simp only [List.set_cons_zero]
      simp only [List.nodup_cons] at hl ⊢
      refine ⟨fun hc => hx (by simp [hc]), hl.2⟩
    | succ m =>
      simp only [List.set_cons_succ]
      simp only [List.nodup_cons] at hl ⊢
      refine ⟨?_, ih hl.2 (fun hc => hx (by simp [hc])) m⟩
      intro hc
      rcases List.mem_or_eq_of_mem_set hc with h2 | h2
      · exact hl.1 h2
      · exact hx (by simp [h2])

theorem findAddr_append_none (l1 l2 : List NodeEntry) (a : Nat)
    (h : findAddr l1 a = none) : findAddr (l1 ++ l2) a = findAddr l2 a := by
  induction l1 with
  | nil => simp
  | cons e rest ih =>
    simp only [findAddr] at h ⊢
    by_cases he : e.addr = a
    · simp [he] at h
    · simp only [List.cons_append, findAddr, he, if_false]
      exact ih (by simpa [he] using h)

theorem count_filterMap_timeout (p : NodeEntry → Bool) (a : Nat) :
    ∀ (es : List NodeEntry), (es.map NodeEntry.addr).Nodup →
    ∀ e, findAddr es a = some e →
    (es.filterMap (fun e => if p e then some e.addr else none)).count a =
      (if p e then 1 else 0) := by
  intro es
  induction es with
  | nil => intro _ e h; simp [findAddr] at h
  | cons x rest ih =>
    intro hnd e h
    simp only [List.map_cons, List.nodup_cons] at hnd
    simp only [findAddr] at h
    by_cases hx : x.addr = a
    · rw [if_pos hx] at h
      have hxe : x = e := by injection h
      subst hxe
      have hnotin : a ∉ (rest.map NodeEntry.addr) := by rw [← hx]; exact hnd.1
      have hrest : (rest.filterMap (fun e => if p e then some e.addr else none)).count a = 0 := by
        rw [List.count_eq_zero]
        intro hmem
        obtain ⟨y, hy, hyy⟩ := List.mem_filterMap.mp hmem
        by_cases hp : p y
        · rw [if_pos hp] at hyy
          injection hyy with hyy
          exact hnotin (hyy ▸ List.mem_map_of_mem NodeEntry.addr hy)
        · simp [hp] at hyy
      by_cases hp : p x
      · simp only [List.filterMap_cons, hp, if_pos]
        simp [List.count_cons, hx, hrest]
      · simp only [List.filterMap_cons, hp]
        simp [hrest]
    · rw [if_neg hx] at h
      have := ih hnd.2 e h
      by_cases hp : p x
      · simp only [List.filterMap_cons, hp, if_pos]
        simp [List.count_cons, hx, this]
      · simp only [List.filterMap_cons, hp]
        simpa using this
theorem findAddr_addr (a : Nat) :
    ∀ (es : List NodeEntry) (e : NodeEntry), findAddr es a = some e → e.addr = a := by
  intro es
  induction es with
  | nil => intro e h; simp [findAddr] at h
  | cons x rest ih =>
    intro e h
    simp only [findAddr] at h
    by_cases hx : x.addr = a
    · rw [if_pos hx] at h
      have hxe : x = e := by injection h
      subst hxe
      exact hx
    · rw [if_neg hx] at h
      exact ih e h

theorem update_result (tbl : NodeTable) (t0 a : Nat) (rssi : Int)
    (hnodup : (tbl.entries.map NodeEntry.addr).Nodup) :
    ((tbl.update t0 a rssi).2 = true ↔
      ((∃ e, findAddr tbl.entries a = some e ∧ e.online = false) ∨
       (findAddr tbl.entries a = none ∧
         (tbl.entries.length < tbl.maxNodes ∨
          (oldestOfflineIdx tbl.entries).isSome = true)))) ∧
    (((tbl.update t0 a rssi).1.entries.map NodeEntry.addr).Nodup) ∧
    ((tbl.update t0 a rssi).1.maxNodes = tbl.maxNodes) ∧
    (∀ e1, findAddr (tbl.update t0 a rssi).1.entries a = some e1 →
      e1.addr = a ∧ e1.online = true ∧ e1.last_seen = t0) := by
  rcases hfe : findAddr tbl.entries a with _ | e
  · -- address absent
    have hue := updateExisting_none t0 a rssi tbl.entries hfe
    have hnotin : a ∉ tbl.entries.map NodeEntry.addr :=
      (findAddr_eq_none_iff tbl.entries a).mp hfe
    unfold NodeTable.update
    rw [hue]
    by_cases hfull : tbl.entries.length ≥ tbl.maxNodes
    · rw [if_pos hfull]
      rcases hoo : oldestOfflineIdx tbl.entries with _ | j
      · -- no offline entry to evict: update fails
        refine ⟨?_, by simpa using hnodup, rfl, ?_⟩
        · simp [hoo]
          omega
        · intro e1 h1
          simp only at h1
          rw [hfe] at h1
          simp at h1
      · -- evict entry j
        have hj := oldestOfflineIdx_lt tbl.entries j hoo
        refine ⟨by simp [hoo], ?_, rfl, ?_⟩
        · simp only [List.map_set]
          exact nodup_set_fresh _ _ hnodup hnotin j
        · intro e1 h1
          simp only at h1
          rw [findAddr_set_fresh a ⟨a, t0, rssi, true, 0⟩ rfl tbl.entries j hfe hj] at h1
          have : (⟨a, t0, rssi, true, 0⟩ : NodeEntry) = e1 := by injection h1
          subst this
          exact ⟨rfl, rfl, rfl⟩
    · rw [if_neg hfull]
      refine ⟨by simp [hfe]; omega, ?_, rfl, ?_⟩
      · simp only [List.map_append, List.map_cons, List.map_nil]
        rw [List.nodup_append]
        exact ⟨hnodup, by simp, by simpa using hnotin⟩
      · intro e1 h1
        simp only at h1
        rw [findAddr_append_none _ _ _ hfe] at h1
        have hone : findAddr [⟨a, t0, rssi, true, 0⟩] a = some ⟨a, t0, rssi, true, 0⟩ := by
          simp [findAddr]
        rw [hone] at h1
        have : (⟨a, t0, rssi, true, 0⟩ : NodeEntry) = e1 := by injection h1
        subst this
        exact ⟨rfl, rfl, rfl⟩
  · -- address present
    obtain ⟨es', h1, h2, h3⟩ := updateExisting_found t0 a rssi tbl.entries e hfe
    have hea : e.addr = a := findAddr_addr a tbl.entries e hfe
    unfold NodeTable.update
    rw [h1]
    refine ⟨?_, by simpa [h3] using hnodup, rfl, ?_⟩
    · simp only [Bool.not_eq_true']
      constructor
      · intro hon
        exact Or.inl ⟨e, rfl, hon⟩
      · intro h
        rcases h with ⟨e2, he2, hon⟩ | ⟨hnone, _⟩
        · have : e = e2 := by injection he2
          subst this
          exact hon
        · simp at hnone
    · intro e1 h4
      simp only at h4
      rw [h2] at h4
      have : ({ e with last_seen := t0, rssi := rssi, online := true } : NodeEntry) = e1 := by
        injection h4
      subst this
      exact ⟨hea, rfl, rfl⟩

theorem check_timeout_result (tbl : NodeTable) (now timeout : Nat)
    (hnodup : (tbl.entries.map NodeEntry.addr).Nodup) (a : Nat) (e : NodeEntry)
    (hfind : findAddr tbl.entries a = some e) :
    findAddr (tbl.check_timeout now timeout).1.entries a =
      some (if timedOut now timeout e then { e with online := false } else e) ∧
    (tbl.check_timeout now timeout).2.count a =
      (if timedOut now timeout e then 1 else 0) ∧
    (((tbl.check_timeout now timeout).1.entries.map NodeEntry.addr).Nodup) := by
  have hg : ∀ x : NodeEntry,
      ((fun x => if timedOut now timeout x then { x with online := false } else x) x).addr =
        x.addr := by
    intro x
    by_cases h : timedOut now timeout x <;> simp [h]
  refine ⟨?_, ?_, ?_⟩
  · unfold NodeTable.check_timeout
    simp only
    rw [findAddr_map _ hg tbl.entries a, hfind]
    rfl
  · unfold NodeTable.check_timeout
    simp only
    exact count_filterMap_timeout (timedOut now timeout) a tbl.entries hnodup e hfind
  · unfold NodeTable.check_timeout
    simp only
    rw [List.map_map]
    have : NodeEntry.addr ∘
        (fun x => if timedOut now timeout x then { x with online := false } else x) =
        NodeEntry.addr := funext hg
    rw [this]
    exact hnodup
/-- C6 (amended): `update` returns the newly-online signal iff the entry was
present and offline, or absent and the table has room or holds a replaceable
offline entry (a full table of online entries makes `update` fail, returning
false — the amendment).  After an `update` at time `t0`, the entry for the
address is online with `last_seen = t0`; a `check_timeout` with age at most
the timeout leaves it online and fires no callback for it, while age above
the timeout sets it offline and fires the callback exactly once, and a
further sweep neither changes it nor fires again. -/
theorem C6_node_update_timeout (tbl : NodeTable) (a t0 : Nat) (rssi : Int)
    (hnodup : (tbl.entries.map NodeEntry.addr).Nodup) :
    ((tbl.update t0 a rssi).2 = true ↔
      ((∃ e, findAddr tbl.entries a = some e ∧ e.online = false) ∨
       (findAddr tbl.entries a = none ∧
         (tbl.entries.length < tbl.maxNodes ∨
          (oldestOfflineIdx tbl.entries).isSome = true)))) ∧
    (∀ e1, findAddr (tbl.update t0 a rssi).1.entries a = some e1 →
      e1.addr = a ∧ e1.online = true ∧ e1.last_seen = t0 ∧
      ∀ now timeout,
        (subU32 now t0 ≤ timeout →
          findAddr (((tbl.update t0 a rssi).1.check_timeout now timeout).1.entries) a =
            some e1 ∧
          ((tbl.update t0 a rssi).1.check_timeout now timeout).2.count a = 0) ∧
        (timeout < subU32 now t0 →
          findAddr (((tbl.update t0 a rssi).1.check_timeout now timeout).1.entries) a =
            some { e1 with online := false } ∧
          ((tbl.update t0 a rssi).1.check_timeout now timeout).2.count a = 1 ∧
          ∀ now2 timeout2,
            findAddr ((((tbl.update t0 a rssi).1.check_timeout now timeout).1.check_timeout
                now2 timeout2).1.entries) a = some { e1 with online := false } ∧
            (((tbl.update t0 a rssi).1.check_timeout now timeout).1.check_timeout
                now2 timeout2).2.count a = 0)) := by
  obtain ⟨hiff, hnd1, hmax, hfound⟩ := update_result tbl t0 a rssi hnodup
  refine ⟨hiff, ?_⟩
  intro e1 h1
  obtain ⟨hea, hon, hls⟩ := hfound e1 h1
  refine ⟨hea, hon, hls, ?_⟩
  intro now timeout
  obtain ⟨hcf, hcc, hcn⟩ :=
    check_timeout_result (tbl.update t0 a rssi).1 now timeout hnd1 a e1 h1
  constructor
  · intro hle
    have htd : timedOut now timeout e1 = false := by
      unfold timedOut
      rw [hon, hls]
      simp
      omega
    rw [htd] at hcf hcc
    simp at hcf hcc
    exact ⟨hcf, hcc⟩
  · intro hgt
    have htd : timedOut now timeout e1 = true := by
      unfold timedOut
      rw [hon, hls]
      simp
      omega
    rw [htd] at hcf hcc
    simp at hcf hcc
    refine ⟨hcf, hcc, ?_⟩
    intro now2 timeout2
    obtain ⟨hdf, hdc, hdn⟩ :=
      check_timeout_result ((tbl.update t0 a rssi).1.check_timeout now timeout).1
        now2 timeout2 hcn a { e1 with online := false } hcf
    have htd2 : timedOut now2 timeout2 { e1 with online := false } = false := by
      unfold timedOut
      simp
    rw [htd2] at hdf hdc
    simp at hdf hdc
    exact ⟨hdf, hdc⟩
/-- C5 (amended): for every non-empty batch of at most 255 well-formed
objects serialized incrementally into a large-enough buffer, deserializing
the serialization succeeds and yields, for each object in order, the same
object_id and the same class-sized present value, with the object_type
collapsed to the canonical type of its value class (AI for analog, BI for
binary, AV for other) and the flags zeroed. -/
theorem C5_incremental_roundtrip (objs outs : List BacnetObject) (cap : Nat)
    (hne : objs ≠ []) (h255 : objs.length ≤ 255)
    (hlen : outs.length = objs.length)
    (hwf : ∀ o ∈ objs, o.WF)
    (hcap : 1 + (incBytes objs).length ≤ cap) :
    serialize_incremental_batch objs cap = .ok (objs.length % 256 :: incBytes objs) ∧
    deserialize_incremental_batch (objs.length % 256 :: incBytes objs) outs =
      .ok (objs.length, List.zipWith reconstructInc objs outs) ∧
    ∀ src out, src.WF → out.pv.length = 16 →
      (reconstructInc src out).object_id = src.object_id ∧
      (reconstructInc src out).flags = 0 ∧
      (is_analog_type src.object_type = true →
        (reconstructInc src out).object_type = OBJ_ANALOG_INPUT ∧
        (reconstructInc src out).pv.take 4 = src.pv.take 4) ∧
      (is_binary_type src.object_type = true →
        (reconstructInc src out).object_type = OBJ_BINARY_INPUT ∧
        (reconstructInc src out).pv.take 1 = src.pv.take 1) ∧
      (is_analog_type src.object_type = false → is_binary_type src.object_type = false →
        (reconstructInc src out).object_type = OBJ_ANALOG_VALUE ∧
        (reconstructInc src out).pv = src.pv) :=
  ⟨serialize_incremental_batch_ok objs cap hne hcap,
   deserialize_incremental_batch_stream objs outs hne h255 hlen
     (fun o ho => ⟨(hwf o ho).1, (hwf o ho).2.2.2.1⟩),
   fun src out hs ho => reconstructInc_spec src out hs ho⟩

set_option maxRecDepth 1000000 in
/-- C5 witness: the two-analog-object batch of spec §8 scenario 2
round-trips through the incremental dialect. -/
theorem C5_incremental_roundtrip_witness :
    (c5WBatch ≠ [] ∧ c5WBatch.length ≤ 255 ∧ c5WOuts.length = c5WBatch.length ∧
      1 + (incBytes c5WBatch).length ≤ 128) ∧
    serialize_incremental_batch c5WBatch 128 =
      .ok (c5WBatch.length % 256 :: incBytes c5WBatch) ∧
    deserialize_incremental_batch (c5WBatch.length % 256 :: incBytes c5WBatch) c5WOuts =
      .ok (c5WBatch.length, List.zipWith reconstructInc c5WBatch c5WOuts) :=
  ⟨⟨by decide, by decide, by decide, by decide⟩,
    (C5_incremental_roundtrip c5WBatch c5WOuts 128 (by decide) (by decide) (by decide)
      (by decide) (by decide)).1,
    (C5_incremental_roundtrip c5WBatch c5WOuts 128 (by decide) (by decide) (by decide)
      (by decide) (by decide)).2.1⟩

set_option maxRecDepth 1000000 in
/-- C5 counterexample: a 256-object batch serializes successfully (count
byte `256 % 256 = 0`), but deserializing its serialization yields zero
objects — the first object's id 7 is never recovered, so the round trip of
the claim fails for this non-empty batch. -/
theorem C5_counterexample :
    c5Batch.length = 256 ∧
    serialize_incremental_batch c5Batch 2000 =
      .ok (c5Batch.length % 256 :: incBytes c5Batch) ∧
    deserialize_incremental_batch (c5Batch.length % 256 :: incBytes c5Batch) c5Outs =
      .ok (0, c5Outs) ∧
    (c5Batch.getD 0 default).object_id = 7 ∧
    (c5Outs.getD 0 default).object_id = 0 := by
  refine ⟨by decide, ?_, ?_, by decide, by decide⟩
  · exact serialize_incremental_batch_ok c5Batch 2000 (by decide) (by decide)
  · decide

/-- C4 witness: the incremental report frame is parsed through the
incremental branch, the full-format single-object batch serializes with the
object type in the fourth byte (bit7 clear), and the resulting Report frame
is parsed through the full branch. -/
theorem C4_report_dialect_detection_witness :
    parse_report c4IncFrame [default] =
      deserialize_incremental_batch c4IncFrame.data [default] ∧
    serialize_batch c4Objs 128 = .ok (c4Objs.length % 256 :: fullBytes c4Objs) ∧
    is_incremental_format ((c4Objs.getD 0 default).object_type) = false ∧
    parse_report c4FullFrame [default] = deserialize_batch c4FullFrame.data [default] :=
  ⟨by
    rw [C4_report_dialect_detection.1 c4IncFrame [default] rfl (by decide)]
    rw [if_pos (by decide)],
   (C4_report_dialect_detection.2.1 c4Objs 128 (by decide) (by decide) (by decide)
     (by decide)).1,
   (C4_report_dialect_detection.2.1 c4Objs 128 (by decide) (by decide) (by decide)
     (by decide)).2.2,
   C4_report_dialect_detection.2.2 c4FullFrame c4Objs [default] rfl (by decide)
     (by decide) (by decide) rfl⟩

/-- C6 counterexample: with a table of capacity 1 holding one online entry,
an `update` for a fresh address returns false even though no entry for that
address exists — the claim's "newly-online iff absent or offline" fails. -/
theorem C6_counterexample :
    findAddr ((NodeTable.mk 1 []).update 0 1 0).1.entries 2 = none ∧
    (((NodeTable.mk 1 []).update 0 1 0).1.update 5 2 0).2 = false := by
  constructor <;> decide

/-- C6 witness: spec §8 scenario 5 — update edge 0xFFBE at t=0 in an empty
table; a sweep at t=14999 with timeout 15000 keeps it online with no
callback; a sweep at t=15001 sets it offline and fires the callback once; a
further sweep changes nothing and fires nothing. -/
theorem C6_node_update_timeout_witness :
    (c6Table.update 0 0xFFBE 0).2 = true ∧
    findAddr (c6Table.update 0 0xFFBE 0).1.entries 0xFFBE = some c6Entry ∧
    findAddr (((c6Table.update 0 0xFFBE 0).1.check_timeout 14999 15000).1.entries) 0xFFBE =
      some c6Entry ∧
    ((c6Table.update 0 0xFFBE 0).1.check_timeout 14999 15000).2.count 0xFFBE = 0 ∧
    findAddr (((c6Table.update 0 0xFFBE 0).1.check_timeout 15001 15000).1.entries) 0xFFBE =
      some { c6Entry with online := false } ∧
    ((c6Table.update 0 0xFFBE 0).1.check_timeout 15001 15000).2.count 0xFFBE = 1 ∧
    findAddr ((((c6Table.update 0 0xFFBE 0).1.check_timeout 15001 15000).1.check_timeout
        16000 15000).1.entries) 0xFFBE = some { c6Entry with online := false } ∧
    (((c6Table.update 0 0xFFBE 0).1.check_timeout 15001 15000).1.check_timeout
        16000 15000).2.count 0xFFBE = 0 :=
  ⟨(C6_node_update_timeout c6Table 0xFFBE 0 0 (by decide)).1.mpr
      (Or.inr ⟨by decide, Or.inl (by decide)⟩),
   by decide,
   (((C6_node_update_timeout c6Table 0xFFBE 0 0 (by decide)).2 c6Entry
      (by decide)).2.2.2 14999 15000).1 (by decide) |>.1,
   (((C6_node_update_timeout c6Table 0xFFBE 0 0 (by decide)).2 c6Entry
      (by decide)).2.2.2 14999 15000).1 (by decide) |>.2,
   (((C6_node_update_timeout c6Table 0xFFBE 0 0 (by decide)).2 c6Entry
      (by decide)).2.2.2 15001 15000).2 (by decide) |>.1,
   (((C6_node_update_timeout c6Table 0xFFBE 0 0 (by decide)).2 c6Entry
      (by decide)).2.2.2 15001 15000).2 (by decide) |>.2.1,
   ((((C6_node_update_timeout c6Table 0xFFBE 0 0 (by decide)).2 c6Entry
      (by decide)).2.2.2 15001 15000).2 (by decide) |>.2.2) 16000 15000 |>.1,
   ((((C6_node_update_timeout c6Table 0xFFBE 0 0 (by decide)).2 c6Entry
      (by decide)).2.2.2 15001 15000).2 (by decide) |>.2.2) 16000 15000 |>.2⟩

/-- C9 witness: a Report frame carrying 17 incremental binary objects makes
the dispatch fire the report callback with exactly 16 decoded objects. -/
theorem C9_report_truncated_to_16_witness :
    (handle_frame 0xFFFE 0 c6Table c9Frame).2 =
      (if (c6Table.update 0 c9Frame.fromAddr 0).2 then
        [MgrEvent.nodeOnline c9Frame.fromAddr] else []) ++
      [MgrEvent.reportEvt c9Frame.fromAddr
        (List.zipWith reconstructInc (c9Batch.take 16) (List.replicate 16 default))] ∧
    (List.zipWith reconstructInc (c9Batch.take 16) (List.replicate 16 default)).length = 16 :=
  C9_report_truncated_to_16 0xFFFE 0 c6Table c9Frame c9Batch rfl (by decide)
    (by decide) rfl (by decide)

set_option maxRecDepth 100000 in
/-- C10 witness: the encoded Write frame with a truncated two-byte payload
decodes, its dispatch emits no write callback, and the WriteAck with result
0 and the frame's seq is the only command event. -/
theorem C10_write_ack_unconditional_witness :
    Frame.decode c10Bytes = .ok c10Frame ∧
    parse_write c10Frame default = .error .invalidParam ∧
    (on_frame_received 0xFFBE 0 c6Table c10Bytes).2.getLast? =
      some (MgrEvent.sent (build_write_ack 0xFFBE c10Frame.fromAddr c10Frame.seq 0)) ∧
    (on_frame_received 0xFFBE 0 c6Table c10Bytes).2 =
      (if (c6Table.update 0 c10Frame.fromAddr 0).2 then
        [MgrEvent.nodeOnline c10Frame.fromAddr] else []) ++
      [MgrEvent.sent (build_write_ack 0xFFBE c10Frame.fromAddr c10Frame.seq 0)] :=
  ⟨by decide, by decide,
   (C10_write_ack_unconditional 0xFFBE 0 c6Table c10Bytes c10Frame (by decide)
     (Or.inl rfl) rfl).1,
   (C10_write_ack_unconditional 0xFFBE 0 c6Table c10Bytes c10Frame (by decide)
     (Or.inl rfl) rfl).2 .invalidParam (by decide)⟩

end XSlot
